import Mathlib

/-!
Verification development for the `acceleration` JavaScript-to-VTL transpiler.

The development shallowly embeds the three components of the repository:

* the target (VTL) AST model with its `toString`/`serialize` contract
  (`vtl-ast.js`, the file containing `BinaryExpressionNode`,
  `IfDirectiveNode`, `PropertyReferenceNode`, `SerializationContext`, ...);
* the scope-flattening symbol table (`symbol-table.js`; that file's code is
  not part of the staged sources, so it is modelled from the specification —
  see `SymbolTable` below);
* the tree-walking transform engine (`index.js`, the walker object with one
  handler per source-AST node kind, `declVarRef`, `nonDeclVarRef`,
  `reportError`, `transpile`).

JavaScript numbers are modelled as integers (every numeric literal the
embedding is evaluated on is integral, and no claim concerns float
formatting); JavaScript's `null` appearing in a node-valued position is
modelled by the explicit node `VtlNode.nullNode`, since the source language
is untyped and the walker can store `null`/stale values in node fields.
-/

/-- A source location: `line` is 1-based, `column` is 0-based, exactly as the
parser reports them (`loc.start`). -/
structure Loc where
  line : Nat
  column : Nat
deriving DecidableEq, Repr

/-- The value carried by a source `Literal` node (string, number or boolean;
numbers are modelled as integers). -/
inductive JsLit where
  | str (s : String)
  | int (i : Int)
  | bool (b : Bool)
deriving DecidableEq, Repr

/-- The subset of the JavaScript (ESTree) AST the walker supports, plus the
representative unsupported kinds `breakStatement` (needed by the switch
lowering, which inspects `stmt.type === 'BreakStatement'`) and
`whileStatement`.  Every constructor carries the node's optional source
location (`node.loc.start`).  Object properties are flattened tuples
`(loc, computed, method, kind, key, value)` and switch cases are tuples
`(test?, consequent)`, mirroring the fields the walker reads. -/
inductive JsNode where
  | program (loc : Option Loc) (body : List JsNode)
  | blockStatement (loc : Option Loc) (body : List JsNode)
  | expressionStatement (loc : Option Loc) (expression : JsNode)
  | variableDeclaration (loc : Option Loc) (declarations : List JsNode)
  | variableDeclarator (loc : Option Loc) (id : JsNode) (init : Option JsNode)
  | identifier (loc : Option Loc) (name : String)
  | literal (loc : Option Loc) (value : JsLit)
  | binaryExpression (loc : Option Loc) (operator : String) (left right : JsNode)
  | assignmentExpression (loc : Option Loc) (operator : String) (left right : JsNode)
  | unaryExpression (loc : Option Loc) (operator : String) (argument : JsNode) (isPfx : Bool)
  | arrayExpression (loc : Option Loc) (elements : List (Option JsNode))
  | objectExpression (loc : Option Loc)
      (properties : List (Option Loc × Bool × Bool × String × JsNode × JsNode))
  | callExpression (loc : Option Loc) (callee : JsNode) (arguments : List JsNode)
  | memberExpression (loc : Option Loc) (object property : JsNode)
  | ifStatement (loc : Option Loc) (test : JsNode) (consequent : JsNode)
      (alternate : Option JsNode)
  | forOfStatement (loc : Option Loc) (left right body : JsNode)
  | switchStatement (loc : Option Loc) (discriminant : JsNode)
      (cases : List (Option JsNode × List JsNode))
  | breakStatement (loc : Option Loc)
  | whileStatement (loc : Option Loc)

/-- The source location stored on a node (`node.loc`). -/
def JsNode.loc : JsNode → Option Loc
  | .program l _ => l
  | .blockStatement l _ => l
  | .expressionStatement l _ => l
  | .variableDeclaration l _ => l
  | .variableDeclarator l _ _ => l
  | .identifier l _ => l
  | .literal l _ => l
  | .binaryExpression l _ _ _ => l
  | .assignmentExpression l _ _ _ => l
  | .unaryExpression l _ _ _ => l
  | .arrayExpression l _ => l
  | .objectExpression l _ => l
  | .callExpression l _ _ => l
  | .memberExpression l _ _ => l
  | .ifStatement l _ _ _ => l
  | .forOfStatement l _ _ _ => l
  | .switchStatement l _ _ => l
  | .breakStatement l => l
  | .whileStatement l => l

/-- The target (VTL) AST (`vtl-ast.js`).  Constructors keep the source class
names without the `Node` suffix.  `propertyReference` and `ifDirective`
carry the two flags (`isReferenceRoot`, `isElseIf`) that the JavaScript
constructors fix on the nodes they are given; the smart constructors
`mkPropertyReference` / `mkMethodReference` / `mkIfDirective` below perform
exactly the flag adjustments the JavaScript constructors perform.
`arrayList` and `mapNode` are the `ArrayListNode`/`MapNode` classes the
walker imports (their class bodies are not in the staged sources; their
rendering below is modelled from the specification and the repository's
expected-output tests).  `variableReference` carries the symbol-table
target name it renders (`VariableReferenceNode`, second constructor
argument in the walker's `new VariableReferenceNode(node, symbol)` calls).
`nullNode` models the JavaScript value `null` sitting in a node field. -/
inductive VtlNode where
  | binaryExpression (operator : String) (left right : VtlNode)
  | breakDirective (scope : Option String)
  | forEachDirective (iterator iterable body : VtlNode)
  | identifier (name : String)
  | ifDirective (test consequent : VtlNode) (alternate : Option VtlNode) (isElseIf : Bool)
  | includeDirective (files : List String)
  | literal (value : JsLit)
  | methodReference (property : VtlNode) (parameters : List VtlNode)
  | parseDirective (file : String)
  | propertyReference (receiver property : VtlNode) (isReferenceRoot : Bool)
  | setDirective (reference expression : VtlNode)
  | statementList (statements : List VtlNode)
  | stopDirective (message : Option String)
  | unaryExpression (operator : String) (argument : VtlNode) (isPfx : Bool)
  | variableReference (symbol : String)
  | arrayList (elements : List VtlNode)
  | mapNode (entries : List (VtlNode × VtlNode))
  | nullNode

/-- The binary-operator precedence table (`operatorPrecedence` map in
`vtl-ast.js`): additive operators map to 1, multiplicative to 2, everything
else is absent from the map (JavaScript `Map.get` returns `undefined`). -/
def operatorPrecedence (op : String) : Option Nat :=
  if op == "+" then some 1
  else if op == "-" then some 1
  else if op == "*" then some 2
  else if op == "/" then some 2
  else none

/-- The `precedence` field a node exposes: only `BinaryExpressionNode`
instances set it (in their constructor, from `operatorPrecedence`); on every
other node the JavaScript property read yields `undefined`. -/
def VtlNode.precedence : VtlNode → Option Nat
  | .binaryExpression op _ _ => operatorPrecedence op
  | _ => none

/-- The operand-parenthesization test of `BinaryExpressionNode.toString`:
`operand.precedence && operand.precedence < this.precedence`.  With
`undefined` on either side the JavaScript condition is falsy. -/
def needsParens (child parent : Option Nat) : Bool :=
  match child, parent with
  | some c, some p => decide (c < p)
  | _, _ => false

/-- `LiteralNode.toString`: strings render single-quoted, other scalars via
`String(value)`. -/
def JsLit.render : JsLit → String
  | .str s => "'" ++ s ++ "'"
  | .int i => toString i
  | .bool b => cond b "true" "false"

/-- The quoted key text of one `MapNode` entry.  Modelled from the spec:
object keys always render as quoted literals regardless of source key
syntax (identifier keys use their name, string-literal keys their text). -/
def mapKeyText : VtlNode → String
  | .identifier n => n
  | .literal (.str s) => s
  | .literal v => JsLit.render v
  | _ => "undefined"

mutual

/-- The `toString` methods of the VTL node classes.  Classes without their
own `toString` (`StatementListNode`, `IfDirectiveNode`,
`ForEachDirectiveNode`) fall back to JavaScript's default
`Object.prototype.toString`, which yields `[object Object]`; the JavaScript
value `null` stringifies to `null`. -/
def VtlNode.render : VtlNode → String
  | .binaryExpression op l r =>
    let lhs := VtlNode.render l
    let rhs := VtlNode.render r
    let lhs := if needsParens (VtlNode.precedence l) (operatorPrecedence op)
               then "(" ++ lhs ++ ")" else lhs
    let rhs := if needsParens (VtlNode.precedence r) (operatorPrecedence op)
               then "(" ++ rhs ++ ")" else rhs
    lhs ++ " " ++ op ++ " " ++ rhs
  | .breakDirective sc =>
    match sc with
    | some s => "#break( " ++ s ++ " )"
    | none => "#break"
  | .forEachDirective _ _ _ => "[object Object]"
  | .identifier n => n
  | .ifDirective _ _ _ _ => "[object Object]"
  | .includeDirective files => "#include( " ++ String.intercalate ", " files ++ " )"
  | .literal v => JsLit.render v
  | .methodReference p params =>
    VtlNode.render p ++ "(" ++ String.intercalate ", " (VtlNode.renderList params) ++ ")"
  | .parseDirective f => "#parse( " ++ f ++ " )"
  | .propertyReference r p root =>
    (if root then "$" else "") ++ VtlNode.render r ++ "." ++ VtlNode.render p
  | .setDirective r e =>
    "#set( " ++ VtlNode.render r ++ " = " ++ VtlNode.render e ++ " )"
  | .statementList _ => "[object Object]"
  | .stopDirective msg =>
    match msg with
    | some m => "#stop( " ++ m ++ " )"
    | none => "#stop"
  | .unaryExpression op a _ =>
    op ++ (if op == "!" || op == "-" then "" else " ") ++ VtlNode.render a
  | .variableReference sym => "$" ++ sym
  | .arrayList elems =>
    "[" ++ String.intercalate ", " (VtlNode.renderList elems) ++ "]"
  | .mapNode entries =>
    "\x7b" ++ String.intercalate ", " (VtlNode.renderPairs entries) ++ "\x7d"
  | .nullNode => "null"

/-- `toString` applied elementwise (array elements, method parameters). -/
def VtlNode.renderList : List VtlNode → List String
  | [] => []
  | n :: rest => VtlNode.render n :: VtlNode.renderList rest

/-- `MapNode` entries rendered as quoted key, colon, value. -/
def VtlNode.renderPairs : List (VtlNode × VtlNode) → List String
  | [] => []
  | (k, v) :: rest =>
    ("'" ++ mapKeyText k ++ "': " ++ VtlNode.render v) :: VtlNode.renderPairs rest

end

/-- The `PropertyReferenceNode` constructor.  It marks the new node as the
reference root and clears the root flag of a chain-node receiver: a
`PropertyReferenceNode` receiver has its own `isReferenceRoot` cleared, a
`MethodReferenceNode` receiver has `receiver.property.isReferenceRoot`
cleared (a JavaScript field write; on a non-`PropertyReferenceNode`
`property` it creates an ad-hoc field that nothing ever reads, so it is
modelled as a no-op). -/
def mkPropertyReference (receiver property : VtlNode) : VtlNode :=
  let receiver' :=
    match receiver with
    | .propertyReference r p _ => .propertyReference r p false
    | .methodReference mp args =>
      match mp with
      | .propertyReference r p _ => .methodReference (.propertyReference r p false) args
      | other => .methodReference other args
    | other => other
  .propertyReference receiver' property true

/-- The `MethodReferenceNode` constructor: stores the property chain and the
parameters, adjusting no flags. -/
def mkMethodReference (property : VtlNode) (parameters : List VtlNode) : VtlNode :=
  .methodReference property parameters

/-- The `IfDirectiveNode` constructor: `isElseIf` starts `false`, and an
alternate that is itself an `IfDirectiveNode` has its `isElseIf` flag set so
that it renders as a chained `#elseif`. -/
def mkIfDirective (test consequent : VtlNode) (alternate : Option VtlNode) : VtlNode :=
  let alternate' :=
    match alternate with
    | some (.ifDirective t c a _) => some (.ifDirective t c a true)
    | other => other
  .ifDirective test consequent alternate' false

/-- Modelled from the spec: the scope-flattening symbol table
(`symbol-table.js`, required by the walker but not among the staged source
files).  `frames` is the parent-linked stack of lexical frames, innermost
first, each an insertion-ordered map from source name to assigned target
name; `counters` is the per-base-name next-suffix map owned by the table
root and shared by every frame, never reset while the table lives. -/
structure SymbolTable where
  frames : List (List (String × String))
  counters : List (String × Nat)

/-- The per-base-name declaration counter (0 when the name was never
declared). -/
def SymbolTable.counterOf (t : SymbolTable) (name : String) : Nat :=
  (t.counters.lookup name).getD 0

/-- Modelled from the spec: the target name handed out for the `c`-th
declaration (0-based) of a base name — the bare name first, then `name_1`,
`name_2`, ... -/
def targetName (name : String) (c : Nat) : String :=
  if c = 0 then name else name ++ "_" ++ toString c

/-- Modelled from the spec: `SymbolTable.prototype.symbol` (the `declare`
operation).  Always succeeds: registers `name` in the current (innermost)
frame under a target name that carries the next numeric suffix for this
base name, and bumps the counter. -/
def SymbolTable.symbol (t : SymbolTable) (name : String) : String × SymbolTable :=
  let c := t.counterOf name
  let tgt := targetName name c
  let frames' :=
    match t.frames with
    | [] => [[(name, tgt)]]
    | f :: rest => ((name, tgt) :: f) :: rest
  (tgt, { frames := frames', counters := (name, c + 1) :: t.counters })

/-- Modelled from the spec: `lookup` searches the current frame, then each
ancestor frame outward, and returns the first match's target name. -/
def framesLookup : List (List (String × String)) → String → Option String
  | [], _ => none
  | f :: rest, name =>
    match f.lookup name with
    | some tgt => some tgt
    | none => framesLookup rest name

/-- Modelled from the spec: resolve a source name through the frame stack. -/
def SymbolTable.lookup (t : SymbolTable) (name : String) : Option String :=
  framesLookup t.frames name

/-- Modelled from the spec: `createNestedScope` pushes a fresh empty frame
(the suffix counters stay shared with the root). -/
def SymbolTable.createNestedScope (t : SymbolTable) : SymbolTable :=
  { frames := [] :: t.frames, counters := t.counters }

/-- Modelled from the spec: `parent` drops the innermost frame. -/
def SymbolTable.parent (t : SymbolTable) : SymbolTable :=
  { frames := t.frames.tail, counters := t.counters }

/-- The `SerializationContext`: line-ending string, two-space indent unit and
the current indent depth (`indentLevel` never goes below zero on any path
the serializer takes, so it is a natural number here). -/
structure SerializationContext where
  eol : String := "\n"
  indentString : String := "  "
  indentLevel : Nat := 0
deriving DecidableEq, Repr

/-- `indentation()`: the indent unit repeated `indentLevel` times. -/
def SerializationContext.indentation (c : SerializationContext) : String :=
  String.join (List.replicate c.indentLevel c.indentString)

/-- `indent(increaseBy = 1)`. -/
def SerializationContext.indent (c : SerializationContext) (increaseBy : Nat := 1) :
    SerializationContext :=
  { c with indentLevel := c.indentLevel + increaseBy }

/-- `dedent(decreaseBy = 1)`. -/
def SerializationContext.dedent (c : SerializationContext) (decreaseBy : Nat := 1) :
    SerializationContext :=
  { c with indentLevel := c.indentLevel - decreaseBy }

/-- The one failure serialization can hit: invoking `.serialize` on the
JavaScript value `null` (a `TypeError` at run time). -/
inductive SerializationFault where
  | typeError
deriving DecidableEq, Repr

mutual

/-- The `serialize(context)` methods of `vtl-ast.js`, with the context
threaded explicitly (the JavaScript mutates it in place, so it is returned
on error paths too — there is no `try`/`finally` anywhere in the source).
Expression-like nodes return `this.toString()` and leave the context
untouched; statement-like directives prefix the current indentation and
append the line ending; `IfDirectiveNode` and `ForEachDirectiveNode` bump
the indent around their bodies exactly where the source does.
`ForEachDirectiveNode` stringifies (not serializes) its iterator and
iterable and appends `#end` without a line ending, as the source does. -/
def serialize : VtlNode → SerializationContext →
    SerializationContext × Except SerializationFault String
  | .nullNode, ctx => (ctx, .error .typeError)
  | .binaryExpression op l r, ctx => (ctx, .ok (VtlNode.render (.binaryExpression op l r)))
  | .identifier n, ctx => (ctx, .ok (VtlNode.render (.identifier n)))
  | .literal v, ctx => (ctx, .ok (VtlNode.render (.literal v)))
  | .methodReference p params, ctx => (ctx, .ok (VtlNode.render (.methodReference p params)))
  | .propertyReference r p root, ctx =>
    (ctx, .ok (VtlNode.render (.propertyReference r p root)))
  | .unaryExpression op a pfx, ctx => (ctx, .ok (VtlNode.render (.unaryExpression op a pfx)))
  | .variableReference sym, ctx => (ctx, .ok (VtlNode.render (.variableReference sym)))
  | .arrayList elems, ctx => (ctx, .ok (VtlNode.render (.arrayList elems)))
  | .mapNode entries, ctx => (ctx, .ok (VtlNode.render (.mapNode entries)))
  | .breakDirective sc, ctx =>
    (ctx, .ok (ctx.indentation ++ VtlNode.render (.breakDirective sc) ++ ctx.eol))
  | .stopDirective msg, ctx =>
    (ctx, .ok (ctx.indentation ++ VtlNode.render (.stopDirective msg) ++ ctx.eol))
  | .includeDirective files, ctx =>
    (ctx, .ok (ctx.indentation ++ VtlNode.render (.includeDirective files) ++ ctx.eol))
  | .parseDirective f, ctx =>
    (ctx, .ok (ctx.indentation ++ VtlNode.render (.parseDirective f) ++ ctx.eol))
  | .setDirective r e, ctx =>
    (ctx, .ok (ctx.indentation ++ VtlNode.render (.setDirective r e) ++ ctx.eol))
  | .statementList stmts, ctx => serializeList stmts ctx
  | .forEachDirective itr itbl body, ctx =>
    let head := "#foreach( " ++ VtlNode.render itr ++ " in " ++ VtlNode.render itbl ++
      " )" ++ ctx.eol
    let ctx1 := ctx.indent
    match serialize body ctx1 with
    | (ctx2, .error e) => (ctx2, .error e)
    | (ctx2, .ok bodyStr) => (ctx2.dedent, .ok (head ++ bodyStr ++ "#end"))
  | .ifDirective test consequent none isElseIf, ctx =>
    match serialize test ctx with
    | (ctx1, .error e) => (ctx1, .error e)
    | (ctx1, .ok testStr) =>
      let directive := if isElseIf then "elseif" else "if"
      let head := "#" ++ directive ++ "( " ++ testStr ++ " )" ++ ctx.eol
      match serialize consequent ctx1.indent with
      | (ctx3, .error e) => (ctx3, .error e)
      | (ctx3, .ok consStr) => (ctx3.dedent, .ok (head ++ consStr ++ "#end" ++ ctx.eol))
  | .ifDirective test consequent (some a) isElseIf, ctx =>
    match serialize test ctx with
    | (ctx1, .error e) => (ctx1, .error e)
    | (ctx1, .ok testStr) =>
      let directive := if isElseIf then "elseif" else "if"
      let head := "#" ++ directive ++ "( " ++ testStr ++ " )" ++ ctx.eol
      match serialize consequent ctx1.indent with
      | (ctx3, .error e) => (ctx3, .error e)
      | (ctx3, .ok consStr) =>
        if (match a with | .ifDirective _ _ _ f => f | _ => false) then
          match serialize a ctx3.dedent with
          | (ctx5, .error e) => (ctx5, .error e)
          | (ctx5, .ok altStr) => (ctx5, .ok (head ++ consStr ++ altStr))
        else
          match serialize a (ctx3.dedent).indent with
          | (ctx6, .error e) => (ctx6, .error e)
          | (ctx6, .ok altStr) =>
            (ctx6.dedent,
             .ok (head ++ consStr ++ "#else" ++ ctx.eol ++ altStr ++ "#end" ++ ctx.eol))

/-- `StatementListNode.serialize`: concatenate each child's serialization in
order, threading the context. -/
def serializeList : List VtlNode → SerializationContext →
    SerializationContext × Except SerializationFault String
  | [], ctx => (ctx, .ok "")
  | s :: rest, ctx =>
    match serialize s ctx with
    | (ctx1, .error e) => (ctx1, .error e)
    | (ctx1, .ok str1) =>
      match serializeList rest ctx1 with
      | (ctx2, .error e) => (ctx2, .error e)
      | (ctx2, .ok str2) => (ctx2, .ok (str1 ++ str2))

end

/-- Whether a source statement is a `BreakStatement` (the walker's
`stmt.type === 'BreakStatement'` test). -/
def isBreakStatement : JsNode → Bool
  | .breakStatement _ => true
  | _ => false

/-- How a transpilation call fails: `reported` is an error thrown through the
walker's `reportError` helper; `typeError` is an uncaught JavaScript
`TypeError` (the walker dereferencing `null`/`undefined`, or `serialize`
being invoked on `null`). -/
inductive TranspileError where
  | reported (message : String)
  | typeError (message : String)
deriving DecidableEq, Repr

/-- `reportError(message, loc)`: prepend `Line <L>, column <C>: ` when the
node carries a location (the column is stored 0-based and reported 1-based),
otherwise throw the bare reason. -/
def reportError (message : String) (loc : Option Loc) : TranspileError :=
  match loc with
  | some l =>
    .reported ("Line " ++ toString l.line ++ ", column " ++ toString (l.column + 1) ++
      ": " ++ message)
  | none => .reported message

/-- The reserved name every discarded expression result is assigned to
(`kDiscardName`). -/
def kDiscardName : String := "discard"

/-- The walker's mutable state: the current scope (the JavaScript
`state.scope` starts out `null` and `enterScope` then creates the root
table; a table with no frames plays the role of the missing table here,
which is observationally the same) and the caller-supplied global names
(`state.env.globals`). -/
structure TState where
  scope : SymbolTable
  globals : List String

/-- `enterScope`: push a frame (creating the root table on first entry). -/
def enterScope (st : TState) : TState :=
  { st with scope := st.scope.createNestedScope }

/-- `exitScope`: replace the scope by its parent. -/
def exitScope (st : TState) : TState :=
  { st with scope := st.scope.parent }

/-- `registerEnvGlobals`: declare each injected global, then the reserved
discard name, in the current (outermost) frame. -/
def registerEnvGlobals (st : TState) : TState :=
  let regOne := fun (s : TState) (g : String) =>
    { s with scope := (s.scope.symbol g).2 }
  let st1 := st.globals.foldl regOne st
  { st1 with scope := (st1.scope.symbol kDiscardName).2 }

/-- `declVarRef(node, state)`: when the produced node is a bare
`IdentifierNode`, declare the name (`state.scope.symbol`) and wrap the
assigned target in a `VariableReferenceNode`; any other node passes through
untouched. -/
def declVarRef (node : VtlNode) (st : TState) : VtlNode × TState :=
  match node with
  | .identifier n =>
    let (sym, scope') := st.scope.symbol n
    (.variableReference sym, { st with scope := scope' })
  | other => (other, st)

/-- `nonDeclVarRef(node, state, jsNode)`: when the produced node is a bare
`IdentifierNode`, resolve it through `state.scope.lookup`; an unresolved
name is the hard error `variable '<name>' was not declared` at the given
source node's location.  Any other node passes through untouched. -/
def nonDeclVarRef (node : VtlNode) (st : TState) (jsNode : JsNode) :
    Except TranspileError VtlNode :=
  match node with
  | .identifier n =>
    match st.scope.lookup n with
    | some sym => .ok (.variableReference sym)
    | none => .error (reportError ("variable '" ++ n ++ "' was not declared") jsNode.loc)
  | other => .ok other

mutual

/-- The walker (`const walkers = { ... }` of `index.js`): one equation per
source node kind, in the walkers' own order where the kinds are supported.
`state.lastChild` is returned functionally: the result of `visit` is the
value `state.lastChild` holds when the handler returns (so a handler that
never assigns it — `VariableDeclarator` with a `null` initializer — returns
the stale value its last sub-visit left there).  Unsupported kinds throw
through `reportError`; dereferences of `null` (the `IfStatement` handler
evaluating `node.alternate.type` with no `else` branch) surface as
`TranspileError.typeError`. -/
def visit : JsNode → TState → Except TranspileError (VtlNode × TState)
  | .arrayExpression loc elems, st =>
    match visitElems loc elems st with
    | .error e => .error e
    | .ok (vals, st1) => .ok (.arrayList vals, st1)
  | .assignmentExpression _ op left right, st =>
    match visit left st with
    | .error e => .error e
    | .ok (l, st1) =>
      match visit right st1 with
      | .error e => .error e
      | .ok (r, st2) => .ok (.binaryExpression op l r, st2)
  | .binaryExpression _ op left right, st =>
    match visit left st with
    | .error e => .error e
    | .ok (lraw, st1) =>
      match nonDeclVarRef lraw st1 left with
      | .error e => .error e
      | .ok l =>
        match visit right st1 with
        | .error e => .error e
        | .ok (rraw, st2) =>
          match nonDeclVarRef rraw st2 right with
          | .error e => .error e
          | .ok r => .ok (.binaryExpression op l r, st2)
  | .blockStatement _ body, st =>
    match visitStmts body (enterScope st) with
    | .error e => .error e
    | .ok (stmts, st1) => .ok (.statementList stmts, exitScope st1)
  | .breakStatement loc, _ =>
    .error (reportError "'break' statements are not supported" loc)
  | .callExpression loc callee args, st =>
    match visit callee st with
    | .error e => .error e
    | .ok (propertyRef, st1) =>
      match callee with
      | .memberExpression _ _ _ =>
        match visitArgs args st1 with
        | .error e => .error e
        | .ok (argNodes, st2) => .ok (mkMethodReference propertyRef argNodes, st2)
      | .identifier _ n =>
        if n == "Symbol" then
          .error (reportError "symbol data types are not supported" loc)
        else
          .error (reportError ("non-method functions are not supported: " ++ n) loc)
      | _ => .error (reportError "non-method functions are not supported: null" loc)
  | .expressionStatement _ expression, st =>
    match visit expression st with
    | .error e => .error e
    | .ok (expr, st1) =>
      match expression with
      | .assignmentExpression _ _ _ _ =>
        let exprLeft := match expr with | .binaryExpression _ l _ => l | _ => .nullNode
        let exprRight := match expr with | .binaryExpression _ _ r => r | _ => .nullNode
        match nonDeclVarRef exprLeft st1 expression with
        | .error e => .error e
        | .ok reference => .ok (.setDirective reference exprRight, st1)
      | _ =>
        match nonDeclVarRef (.identifier kDiscardName) st1 expression with
        | .error e => .error e
        | .ok reference => .ok (.setDirective reference expr, st1)
  | .forOfStatement _ left right body, st =>
    match visit left st with
    | .error e => .error e
    | .ok (leftNode, st1) =>
      match leftNode with
      | .statementList (iterator :: _) =>
        match nonDeclVarRef iterator st1 left with
        | .error e => .error e
        | .ok iteratorRef =>
          match visit right st1 with
          | .error e => .error e
          | .ok (iterable, st2) =>
            match nonDeclVarRef iterable st2 right with
            | .error e => .error e
            | .ok iterableRef =>
              match visit body st2 with
              | .error e => .error e
              | .ok (bodyNode, st3) =>
                .ok (.forEachDirective iteratorRef iterableRef bodyNode, st3)
      | _ =>
        .error (.typeError "Cannot read properties of undefined (reading '0')")
  | .identifier _ n, st => .ok (.identifier n, st)
  | .ifStatement _ test consequent alternate, st =>
    match visit test st with
    | .error e => .error e
    | .ok (t, st1) =>
      match visit consequent st1 with
      | .error e => .error e
      | .ok (c, st2) =>
        match alternate with
        | none => .error (.typeError "Cannot read properties of null (reading 'type')")
        | some altNode =>
          match visit altNode st2 with
          | .error e => .error e
          | .ok (a, st3) => .ok (mkIfDirective t c (some a), st3)
  | .literal _ v, st => .ok (.literal v, st)
  | .memberExpression _ obj prop, st =>
    match visit obj st with
    | .error e => .error e
    | .ok (receiver, st1) =>
      match visit prop st1 with
      | .error e => .error e
      | .ok (property, st2) => .ok (mkPropertyReference receiver property, st2)
  | .objectExpression _ props, st =>
    match visitProperties props st with
    | .error e => .error e
    | .ok (entries, st1) => .ok (.mapNode entries, st1)
  | .program _ body, st =>
    match visitStmts body (registerEnvGlobals (enterScope st)) with
    | .error e => .error e
    | .ok (stmts, st1) => .ok (.statementList stmts, exitScope st1)
  | .switchStatement _ discriminant cases, st =>
    match visit discriminant st with
    | .error e => .error e
    | .ok (dv, st1) =>
      let (matchedRef, st2) := declVarRef (.identifier "matched") st1
      let (fallthroughRef, st3) := declVarRef (.identifier "fallthrough") st2
      let (discriminantRef, st4) := declVarRef (.identifier "discriminant") st3
      let head : List VtlNode :=
        [.setDirective matchedRef (.literal (.bool false)),
         .setDirective fallthroughRef (.literal (.bool false)),
         .setDirective discriminantRef dv]
      match visitCases matchedRef fallthroughRef discriminantRef cases st4 with
      | .error e => .error e
      | .ok (caseIfs, st5) => .ok (.statementList (head ++ caseIfs), st5)
  | .unaryExpression _ op argument pfx, st =>
    match visit argument st with
    | .error e => .error e
    | .ok (arg, st1) => .ok (.unaryExpression op arg pfx, st1)
  | .variableDeclaration _ decls, st =>
    match visitStmts decls st with
    | .error e => .error e
    | .ok (stmts, st1) => .ok (.statementList stmts, st1)
  | .variableDeclarator _ id init, st =>
    match visit id st with
    | .error e => .error e
    | .ok (idNode, st1) =>
      let (reference, st2) := declVarRef idNode st1
      match init with
      | none => .ok (idNode, st2)
      | some initNode =>
        match visit initNode st2 with
        | .error e => .error e
        | .ok (expression, st3) => .ok (.setDirective reference expression, st3)
  | .whileStatement loc, _ =>
    .error (reportError "'while' loops are not supported" loc)

/-- The statement loops of `Program`, `BlockStatement` and
`VariableDeclaration`: visit each child in order and collect each
`state.lastChild`. -/
def visitStmts : List JsNode → TState → Except TranspileError (List VtlNode × TState)
  | [], st => .ok ([], st)
  | s :: rest, st =>
    match visit s st with
    | .error e => .error e
    | .ok (n, st1) =>
      match visitStmts rest st1 with
      | .error e => .error e
      | .ok (ns, st2) => .ok (n :: ns, st2)

/-- The `ArrayExpression` element loop: a hole (`null` element) is rejected
at the array's own location; every element flows through `nonDeclVarRef`. -/
def visitElems : Option Loc → List (Option JsNode) → TState →
    Except TranspileError (List VtlNode × TState)
  | _, [], st => .ok ([], st)
  | arrLoc, none :: _, _ =>
    .error (reportError "array holes are not supported" arrLoc)
  | arrLoc, some el :: rest, st =>
    match visit el st with
    | .error e => .error e
    | .ok (n, st1) =>
      match nonDeclVarRef n st1 el with
      | .error e => .error e
      | .ok v =>
        match visitElems arrLoc rest st1 with
        | .error e => .error e
        | .ok (vs, st2) => .ok (v :: vs, st2)

/-- The `CallExpression` argument loop: each argument flows through
`nonDeclVarRef`. -/
def visitArgs : List JsNode → TState → Except TranspileError (List VtlNode × TState)
  | [], st => .ok ([], st)
  | a :: rest, st =>
    match visit a st with
    | .error e => .error e
    | .ok (n, st1) =>
      match nonDeclVarRef n st1 a with
      | .error e => .error e
      | .ok v =>
        match visitArgs rest st1 with
        | .error e => .error e
        | .ok (vs, st2) => .ok (v :: vs, st2)

/-- The `ObjectExpression` property loop: computed keys, methods, getters
and setters are rejected at the property's location; each value flows
through `nonDeclVarRef`. -/
def visitProperties :
    List (Option Loc × Bool × Bool × String × JsNode × JsNode) → TState →
    Except TranspileError (List (VtlNode × VtlNode) × TState)
  | [], st => .ok ([], st)
  | (ploc, computed, isMethod, kind, key, value) :: rest, st =>
    if computed then
      .error (reportError "computed properties are not supported" ploc)
    else
      match visit key st with
      | .error e => .error e
      | .ok (keyNode, st1) =>
        let name := match keyNode with | .identifier n => n | _ => "undefined"
        if isMethod then
          .error (reportError ("methods ('" ++ name ++ "') are not supported") ploc)
        else if kind == "get" then
          .error (reportError ("getters ('" ++ name ++ "') are not supported") ploc)
        else if kind == "set" then
          .error (reportError ("setters ('" ++ name ++ "') are not supported") ploc)
        else
          match visit value st1 with
          | .error e => .error e
          | .ok (v, st2) =>
            match nonDeclVarRef v st2 value with
            | .error e => .error e
            | .ok vRef =>
              match visitProperties rest st2 with
              | .error e => .error e
              | .ok (entries, st3) => .ok ((keyNode, vRef) :: entries, st3)

/-- The `SwitchStatement` case loop: each case yields one `IfDirective`
whose test is `fallthrough || <caseTest>` (the hard-coded loose-equality
comparison against the discriminant temporary) or, for the default case,
`fallthrough || !matched`. -/
def visitCases (matchedRef fallthroughRef discriminantRef : VtlNode) :
    List (Option JsNode × List JsNode) → TState →
    Except TranspileError (List VtlNode × TState)
  | [], st => .ok ([], st)
  | (testOpt, consequent) :: rest, st =>
    match testOpt with
    | none =>
      match visitCaseBody consequent st with
      | .error e => .error e
      | .ok (bodyStmts, canFallthrough, st1) =>
        let conseq := VtlNode.statementList (bodyStmts ++
          [.setDirective matchedRef (.literal (.bool true)),
           .setDirective fallthroughRef (.literal (.bool canFallthrough))])
        let test := VtlNode.binaryExpression "||" fallthroughRef
          (.unaryExpression "!" matchedRef true)
        match visitCases matchedRef fallthroughRef discriminantRef rest st1 with
        | .error e => .error e
        | .ok (ns, st2) => .ok (mkIfDirective test conseq none :: ns, st2)
    | some testNode =>
      match visit testNode st with
      | .error e => .error e
      | .ok (tv, st1) =>
        let test := VtlNode.binaryExpression "||" fallthroughRef
          (.binaryExpression "==" discriminantRef tv)
        match visitCaseBody consequent st1 with
        | .error e => .error e
        | .ok (bodyStmts, canFallthrough, st2) =>
          let conseq := VtlNode.statementList (bodyStmts ++
            [.setDirective matchedRef (.literal (.bool true)),
             .setDirective fallthroughRef (.literal (.bool canFallthrough))])
          match visitCases matchedRef fallthroughRef discriminantRef rest st2 with
          | .error e => .error e
          | .ok (ns, st3) => .ok (mkIfDirective test conseq none :: ns, st3)

/-- One case's statement loop: stop (with the fall-through flag cleared) at
the first top-level `BreakStatement`, otherwise visit and collect. -/
def visitCaseBody : List JsNode → TState →
    Except TranspileError (List VtlNode × Bool × TState)
  | [], st => .ok ([], true, st)
  | s :: rest, st =>
    if isBreakStatement s then .ok ([], false, st)
    else
      match visit s st with
      | .error e => .error e
      | .ok (n, st1) =>
        match visitCaseBody rest st1 with
        | .error e => .error e
        | .ok (ns, canFallthrough, st2) => .ok (n :: ns, canFallthrough, st2)

end

/-- `transpile(source, env)` after parsing: walk the program, then serialize
the produced root node with a fresh `SerializationContext` (a serialization
fault is JavaScript's `TypeError` for `null.serialize`). -/
def transpileAst (ast : JsNode) (globals : List String) : Except TranspileError String :=
  match visit ast { scope := { frames := [], counters := [] }, globals } with
  | .error e => .error e
  | .ok (root, _) =>
    match serialize root {} with
    | (_, .ok out) => .ok out
    | (_, .error _) => .error (.typeError "Cannot read properties of null (reading 'serialize')")

/-- The switch-case loop as the specification words it: for each case in
source order, one `IfDirective` whose test is `fallthrough OR (discriminant
equality-test-against-the-visited-case-value)` — for the default case,
`fallthrough OR NOT matched` — and whose body is the case's statements up to
(but not including) a terminating `break`, followed by `matched := true` and
then `fallthrough := (true if no break was present, false if a break was
present)`. -/
def casesPerSpec (matchedRef fallthroughRef discriminantRef : VtlNode) :
    List (Option JsNode × List JsNode) → TState →
    Except TranspileError (List VtlNode × TState)
  | [], st => .ok ([], st)
  | (testOpt, consequent) :: rest, st =>
    let mkCase := fun (test : VtlNode) (bodyStmts : List VtlNode) (stNext : TState) =>
      let body := VtlNode.statementList (bodyStmts ++
        [.setDirective matchedRef (.literal (.bool true)),
         .setDirective fallthroughRef
           (.literal (.bool (!consequent.any isBreakStatement)))])
      match casesPerSpec matchedRef fallthroughRef discriminantRef rest stNext with
      | .error e => .error e
      | .ok (ns, stEnd) => .ok (mkIfDirective test body none :: ns, stEnd)
    match testOpt with
    | none =>
      match visitStmts (consequent.takeWhile (fun s => !isBreakStatement s)) st with
      | .error e => .error e
      | .ok (bodyStmts, st1) =>
        mkCase (.binaryExpression "||" fallthroughRef
          (.unaryExpression "!" matchedRef true)) bodyStmts st1
    | some testNode =>
      match visit testNode st with
      | .error e => .error e
      | .ok (caseValue, st1) =>
        match visitStmts (consequent.takeWhile (fun s => !isBreakStatement s)) st1 with
        | .error e => .error e
        | .ok (bodyStmts, st2) =>
          mkCase (.binaryExpression "||" fallthroughRef
            (.binaryExpression "==" discriminantRef caseValue)) bodyStmts st2

/-- The whole switch lowering as the specification words it: one statement
list beginning with exactly three `SetDirective`s — `matched := false`,
`fallthrough := false`, `discriminant := the visited discriminant` — then
one `IfDirective` per case in source order, per `casesPerSpec`. -/
def switchLoweringPerSpec (discriminant : JsNode)
    (cases : List (Option JsNode × List JsNode)) (st : TState) :
    Except TranspileError (VtlNode × TState) :=
  match visit discriminant st with
  | .error e => .error e
  | .ok (dv, st1) =>
    let (matchedRef, st2) := declVarRef (.identifier "matched") st1
    let (fallthroughRef, st3) := declVarRef (.identifier "fallthrough") st2
    let (discriminantRef, st4) := declVarRef (.identifier "discriminant") st3
    match casesPerSpec matchedRef fallthroughRef discriminantRef cases st4 with
    | .error e => .error e
    | .ok (caseIfs, st5) =>
      .ok (.statementList
        (.setDirective matchedRef (.literal (.bool false)) ::
         .setDirective fallthroughRef (.literal (.bool false)) ::
         .setDirective discriminantRef dv :: caseIfs), st5)

/-- One link of a property-access/method-call chain as the transform builds
it left to right: either `.bar` (a `PropertyReferenceNode` wrapping) or
`(args)` (a `MethodReferenceNode` wrapping). -/
inductive ChainLink where
  | property (p : VtlNode)
  | call (args : List VtlNode)

/-- Build a chain from its unwrapped base by applying the JavaScript node
constructors link by link. -/
def buildChain (base : VtlNode) : List ChainLink → VtlNode
  | [] => base
  | .property p :: rest => buildChain (mkPropertyReference base p) rest
  | .call args :: rest => buildChain (mkMethodReference base args) rest

/-- The chain shapes the transform engine can produce (`topIsProperty` says
whether the chain built so far ends in a property link): a chain starts with
a property access (`MemberExpression`), and a call link always sits on a
property link (the `CallExpression` handler rejects every callee that is
not a `MemberExpression`), so two consecutive call links never occur. -/
def wfAux : Bool → List ChainLink → Bool
  | _, [] => true
  | _, .property _ :: rest => wfAux true rest
  | topIsProperty, .call _ :: rest => topIsProperty && wfAux false rest

/-- A transform-shaped chain spine: nonempty, begins with a property link,
no two consecutive call links. -/
def wfLinks : List ChainLink → Bool
  | [] => false
  | .property _ :: rest => wfAux true rest
  | .call _ :: _ => false

/-- Whether a node is a chain node (`PropertyReferenceNode` or
`MethodReferenceNode`). -/
def isChainNode : VtlNode → Bool
  | .propertyReference _ _ _ => true
  | .methodReference _ _ => true
  | _ => false

/-- How many nodes along a chain's receiver spine carry the
`isReferenceRoot` flag — that is, how many `$` sigils the chain renders on
its spine. -/
def rootCount : VtlNode → Nat
  | .propertyReference r _ root => (if root then 1 else 0) + rootCount r
  | .methodReference p _ => rootCount p
  | _ => 0

/-- One operation against the symbol table over a transpilation call's
lifetime: a declaration (`symbol`), a frame push (`createNestedScope`) or a
frame pop (`parent`). -/
inductive ScopeOp where
  | declare (name : String)
  | enter
  | exit

/-- Run a sequence of scope operations, collecting each declaration's
`(base name, assigned target name)` pair in order. -/
def runCollect : SymbolTable → List ScopeOp → List (String × String)
  | _, [] => []
  | t, .declare n :: rest =>
    let (tgt, t') := t.symbol n
    (n, tgt) :: runCollect t' rest
  | t, .enter :: rest => runCollect t.createNestedScope rest
  | t, .exit :: rest => runCollect t.parent rest

/-- The target names handed out for the declarations of one base name over
a whole operation sequence, in order, starting from a fresh table. -/
def declaredTargets (ops : List ScopeOp) (base : String) : List String :=
  ((runCollect { frames := [], counters := [] } ops).filter (fun p => p.1 == base)).map
    (fun p => p.2)

/-- How often an operation sequence declares one base name. -/
def countDeclares (ops : List ScopeOp) (base : String) : Nat :=
  ops.countP (fun o => match o with | .declare n => n == base | _ => false)

/-- Concrete probe: a bare `let x;` program (a declarator with no
initializer). -/
def letWithoutInitProbe : JsNode :=
  .program none [.variableDeclaration none
    [.variableDeclarator none (.identifier none "x") none]]

/-- Concrete probe: `if (true) {}` — a conditional with no `else` branch. -/
def ifWithoutElseProbe : JsNode :=
  .program none [.ifStatement none (.literal none (.bool true))
    (.blockStatement none []) none]

/-- Concrete probe: a program that declares `foo`, then runs `foo = bar;`
with `bar` never declared, then `switch (baz) {}` with `baz` never
declared. -/
def unresolvedProbe : JsNode :=
  .program none
    [.variableDeclaration none [.variableDeclarator none (.identifier none "foo")
       (some (.literal none (.int 1)))],
     .expressionStatement none (.assignmentExpression none "="
       (.identifier none "foo") (.identifier none "bar")),
     .switchStatement none (.identifier none "baz") []]

/-- Concrete probe: `const foo = bar + baz;` with the source locations the
repository's own test uses (line 2, `bar` at 0-based column 20). -/
def undeclaredBinaryProbe : JsNode :=
  .program none [.variableDeclaration (some (Loc.mk 2 8))
    [.variableDeclarator (some (Loc.mk 2 14)) (.identifier (some (Loc.mk 2 14)) "foo")
      (some (.binaryExpression (some (Loc.mk 2 20)) "+"
        (.identifier (some (Loc.mk 2 20)) "bar")
        (.identifier (some (Loc.mk 2 26)) "baz")))]]

/-- Concrete probe: `while (true) {}` with no recorded location. -/
def whileProbe : JsNode := .program none [.whileStatement none]

/-- Concrete probe: `switch (x) { case 1: break; }` — one non-default case,
visited in a state whose scope holds one empty frame. -/
def switchOpProbe : JsNode :=
  .switchStatement none (.identifier none "x")
    [(some (.literal none (.int 1)), [.breakStatement none])]

/-- The start state `switchOpProbe` is visited in. -/
def probeState : TState :=
  { scope := { frames := [[]], counters := [] }, globals := [] }

/-- The VTL tree `switchOpProbe` lowers to (used by the C2 witness): note
the hard-coded `==` in the case test. -/
def switchOpProbeNode : VtlNode :=
  .statementList
    [.setDirective (.variableReference "matched") (.literal (.bool false)),
     .setDirective (.variableReference "fallthrough") (.literal (.bool false)),
     .setDirective (.variableReference "discriminant") (.identifier "x"),
     .ifDirective
       (.binaryExpression "||" (.variableReference "fallthrough")
         (.binaryExpression "==" (.variableReference "discriminant")
           (.literal (.int 1))))
       (.statementList
         [.setDirective (.variableReference "matched") (.literal (.bool true)),
          .setDirective (.variableReference "fallthrough") (.literal (.bool false))])
       none false]

/-- The state after visiting `switchOpProbe` from `probeState`. -/
def switchOpProbeEndState : TState :=
  { scope := { frames := [[("discriminant", "discriminant"),
                           ("fallthrough", "fallthrough"),
                           ("matched", "matched")]],
               counters := [("discriminant", 1), ("fallthrough", 1), ("matched", 1)] },
    globals := [] }

/-! ## Validation of the embedding against the repository's own test suite -/

example : VtlNode.render (.binaryExpression "*"
    (.binaryExpression "+" (.literal (.int 1)) (.literal (.int 2)))
    (.literal (.int 3))) = "(1 + 2) * 3" := rfl

example : VtlNode.render (.binaryExpression "+"
    (.literal (.int 1))
    (.binaryExpression "*" (.literal (.int 2)) (.literal (.int 3)))) = "1 + 2 * 3" := rfl

example :
    serialize (.ifDirective (.identifier "t")
      (.statementList [.setDirective (.variableReference "a") (.literal (.int 1))])
      none false) {} =
    ({}, .ok ("#if( t )\n  #set( $a = 1 )\n#end\n")) := rfl

example : transpileAst (.program none
  [.variableDeclaration none [.variableDeclarator none (.identifier none "a")
     (some (.literal none (.int 0)))],
   .blockStatement none
     [.variableDeclaration none [.variableDeclarator none (.identifier none "a")
        (some (.literal none (.int 1)))]],
   .variableDeclaration none [.variableDeclarator none (.identifier none "b")
     (some (.binaryExpression none "+" (.literal none (.int 4))
        (.identifier none "a")))]]) [] =
  .ok "#set( $a = 0 )\n#set( $a_1 = 1 )\n#set( $b = 4 + $a )\n" := rfl

set_option maxRecDepth 4000 in
example : transpileAst (.program none
    [.variableDeclaration none [.variableDeclarator none (.identifier none "value")
       (some (.literal none (.int 0)))],
     .switchStatement none (.identifier none "foo")
       [(some (.literal none (.int 1)),
         [.expressionStatement none (.assignmentExpression none "="
            (.identifier none "value") (.literal none (.int 1))),
          .breakStatement none]),
        (some (.literal none (.int 3)), []),
        (some (.literal none (.int 4)),
         [.expressionStatement none (.assignmentExpression none "="
            (.identifier none "value") (.literal none (.int 7)))]),
        (none,
         [.expressionStatement none (.assignmentExpression none "="
            (.identifier none "value") (.literal none (.int 99)))])]]) [] = .ok
  ("#set( $value = 0 )\n" ++
   "#set( $matched = false )\n" ++
   "#set( $fallthrough = false )\n" ++
   "#set( $discriminant = foo )\n" ++
   "#if( $fallthrough || $discriminant == 1 )\n" ++
   "  #set( $value = 1 )\n  #set( $matched = true )\n  #set( $fallthrough = false )\n" ++
   "#end\n" ++
   "#if( $fallthrough || $discriminant == 3 )\n" ++
   "  #set( $matched = true )\n  #set( $fallthrough = true )\n" ++
   "#end\n" ++
   "#if( $fallthrough || $discriminant == 4 )\n" ++
   "  #set( $value = 7 )\n  #set( $matched = true )\n  #set( $fallthrough = true )\n" ++
   "#end\n" ++
   "#if( $fallthrough || !$matched )\n" ++
   "  #set( $value = 99 )\n  #set( $matched = true )\n  #set( $fallthrough = true )\n" ++
   "#end\n") := rfl

/-! ## C1: the shape of the switch lowering -/

/-- The case-body loop collects exactly the visits of the statements before
the first top-level `break`, and reports fall-through exactly when no
top-level `break` occurs. -/
theorem visitCaseBody_eq : ∀ (stmts : List JsNode) (st : TState),
    visitCaseBody stmts st =
      match visitStmts (stmts.takeWhile (fun s => !isBreakStatement s)) st with
      | .error e => .error e
      | .ok (ns, st1) => .ok (ns, !stmts.any isBreakStatement, st1)
  | [], st => by simp [visitCaseBody, visitStmts]
  | s :: rest, st => by
    rw [visitCaseBody]
    by_cases h : isBreakStatement s
    · simp [h, visitStmts]
    · simp only [h, List.takeWhile_cons, Bool.not_false, if_true, if_false,
        List.any_cons, Bool.false_or, eq_self_iff_true, Bool.not_true, ite_true, ite_false]
      rw [visitStmts]
      cases hv : visit s st with
      | error e => simp
      | ok v =>
        obtain ⟨n, st1⟩ := v
        simp only []
        rw [visitCaseBody_eq rest st1]
        cases hr : visitStmts (rest.takeWhile (fun s => !isBreakStatement s)) st1 with
        | error e => simp
        | ok w => obtain ⟨ns, st2⟩ := w; simp


set_option maxHeartbeats 1000000 in
/-- Hand-stated unfolding equation for the walker's `SwitchStatement`
handler (the automatic equation generator times out on `visit`; structural
recursion makes this `rfl`). -/
theorem visit_switchStatement (loc : Option Loc) (discriminant : JsNode)
    (cases : List (Option JsNode × List JsNode)) (st : TState) :
    visit (.switchStatement loc discriminant cases) st =
      match visit discriminant st with
      | .error e => .error e
      | .ok (dv, st1) =>
        let (matchedRef, st2) := declVarRef (.identifier "matched") st1
        let (fallthroughRef, st3) := declVarRef (.identifier "fallthrough") st2
        let (discriminantRef, st4) := declVarRef (.identifier "discriminant") st3
        let head : List VtlNode :=
          [.setDirective matchedRef (.literal (.bool false)),
           .setDirective fallthroughRef (.literal (.bool false)),
           .setDirective discriminantRef dv]
        match visitCases matchedRef fallthroughRef discriminantRef cases st4 with
        | .error e => .error e
        | .ok (caseIfs, st5) => .ok (.statementList (head ++ caseIfs), st5) := rfl

/-- The walker's switch-case loop coincides with the specification's
per-case description. -/
theorem visitCases_eq : ∀ (m f d : VtlNode) (cases : List (Option JsNode × List JsNode))
    (st : TState), visitCases m f d cases st = casesPerSpec m f d cases st
  | _, _, _, [], _ => by rw [visitCases.eq_def, casesPerSpec.eq_def]
  | m, f, d, (testOpt, consequent) :: rest, st => by
    rw [visitCases.eq_def, casesPerSpec.eq_def]
    dsimp only []
    cases testOpt with
    | none =>
      rw [visitCaseBody_eq]
      cases hb : visitStmts (consequent.takeWhile (fun s => !isBreakStatement s)) st with
      | error e => rfl
      | ok v =>
        obtain ⟨bodyStmts, st1⟩ := v
        dsimp only []
        rw [visitCases_eq m f d rest st1]
    | some testNode =>
      dsimp only []
      cases ht : visit testNode st with
      | error e => rfl
      | ok v =>
        obtain ⟨tv, st1⟩ := v
        dsimp only []
        rw [visitCaseBody_eq]
        cases hb : visitStmts (consequent.takeWhile (fun s => !isBreakStatement s)) st1 with
        | error e => rfl
        | ok w =>
          obtain ⟨bodyStmts, st2⟩ := w
          dsimp only []
          rw [visitCases_eq m f d rest st2]

/-- C1 (confirmed).  For every switch statement the transform emits one
statement list that begins with exactly three `SetDirective`s — `matched :=
false`, `fallthrough := false`, `discriminant := the visited discriminant`
— followed by exactly one `IfDirective` per case in source order; a
non-default case's test is `fallthrough || (discriminant == visited case
value)`, the default case's test is `fallthrough || !matched`, and every
case's body is its statements up to but not including a terminating
`break`, then `matched := true`, then `fallthrough := (true when no break
was present)`: the walker's handler is extensionally equal to
`switchLoweringPerSpec`, the lowering transcribed from the specification's
words. -/
theorem switch_lowering_matches_spec (loc : Option Loc) (discriminant : JsNode)
    (cases : List (Option JsNode × List JsNode)) (st : TState) :
    visit (.switchStatement loc discriminant cases) st =
      switchLoweringPerSpec discriminant cases st := by
  rw [visit_switchStatement, switchLoweringPerSpec]
  cases hd : visit discriminant st with
  | error e => rfl
  | ok v =>
    obtain ⟨dv, st1⟩ := v
    dsimp only []
    rw [visitCases_eq]
    split <;> rfl

/-- C2 (counterexample).  The equality operator in a non-default case's
comparison is not taken from the source program at all: lowering
`switch (x) \x7b case 1: break; \x7d` — a construct whose JavaScript
semantics is strict (`===`) comparison — emits the fixed loose operator
`==`.  The whole visit result is given explicitly. -/
theorem switch_operator_counterexample :
    visit switchOpProbe probeState = .ok
      (.statementList
        [.setDirective (.variableReference "matched") (.literal (.bool false)),
         .setDirective (.variableReference "fallthrough") (.literal (.bool false)),
         .setDirective (.variableReference "discriminant") (.identifier "x"),
         .ifDirective
           (.binaryExpression "||" (.variableReference "fallthrough")
             (.binaryExpression "==" (.variableReference "discriminant")
               (.literal (.int 1))))
           (.statementList
             [.setDirective (.variableReference "matched") (.literal (.bool true)),
              .setDirective (.variableReference "fallthrough") (.literal (.bool false))])
           none false],
       { scope := { frames := [[("discriminant", "discriminant"),
                                ("fallthrough", "fallthrough"),
                                ("matched", "matched")]],
                    counters := [("discriminant", 1), ("fallthrough", 1), ("matched", 1)] },
         globals := [] }) ∧ ("==" : String) ≠ "===" :=
  ⟨rfl, by decide⟩

/-- Every `IfDirective` the switch-case loop emits has a test of the form
`fallthrough || rhs`, and whenever `rhs` is a binary comparison its
operator is the constant `==`. -/
theorem visitCases_ops : ∀ (m f d : VtlNode) (cases : List (Option JsNode × List JsNode))
    (st : TState) (ns : List VtlNode) (st' : TState),
    visitCases m f d cases st = .ok (ns, st') → ∀ n ∈ ns,
      ∃ t c, n = .ifDirective t c none false ∧
        ∃ rhs, t = .binaryExpression "||" f rhs ∧
          ∀ op x y, rhs = .binaryExpression op x y → op = "=="
  | _, _, _, [], _, ns, _, h => by
    rw [visitCases.eq_def] at h
    simp at h
    obtain ⟨h1, _⟩ := h
    subst h1
    intro n hn
    exact absurd hn (List.not_mem_nil n)
  | m, f, d, (testOpt, consequent) :: rest, st, ns, st', h => by
    rw [visitCases.eq_def] at h
    dsimp only [] at h
    cases testOpt with
    | none =>
      cases hb : visitCaseBody consequent st with
      | error e => rw [hb] at h; exact absurd h (by simp)
      | ok v =>
        obtain ⟨bodyStmts, canFallthrough, st1⟩ := v
        rw [hb] at h
        dsimp only [] at h
        cases hr : visitCases m f d rest st1 with
        | error e => rw [hr] at h; exact absurd h (by simp)
        | ok w =>
          obtain ⟨ns1, st2⟩ := w
          rw [hr] at h
          dsimp only [] at h
          have hns : ns = mkIfDirective (.binaryExpression "||" f
              (.unaryExpression "!" m true))
              (.statementList (bodyStmts ++
                [.setDirective m (.literal (.bool true)),
                 .setDirective f (.literal (.bool canFallthrough))])) none :: ns1 := by
            cases h; rfl
          subst hns
          intro n hn
          rcases List.mem_cons.mp hn with hn | hn
          · subst hn
            refine ⟨_, _, rfl, _, rfl, ?_⟩
            intro op x y hop
            exact absurd hop (by simp)
          · exact visitCases_ops m f d rest st1 ns1 st2 hr n hn
    | some testNode =>
      dsimp only [] at h
      cases ht : visit testNode st with
      | error e => rw [ht] at h; exact absurd h (by simp)
      | ok v =>
        obtain ⟨tv, st1⟩ := v
        rw [ht] at h
        dsimp only [] at h
        cases hb : visitCaseBody consequent st1 with
        | error e => rw [hb] at h; exact absurd h (by simp)
        | ok w =>
          obtain ⟨bodyStmts, canFallthrough, st2⟩ := w
          rw [hb] at h
          dsimp only [] at h
          cases hr : visitCases m f d rest st2 with
          | error e => rw [hr] at h; exact absurd h (by simp)
          | ok u =>
            obtain ⟨ns1, st3⟩ := u
            rw [hr] at h
            dsimp only [] at h
            have hns : ns = mkIfDirective (.binaryExpression "||" f
                (.binaryExpression "==" d tv))
                (.statementList (bodyStmts ++
                  [.setDirective m (.literal (.bool true)),
                   .setDirective f (.literal (.bool canFallthrough))])) none :: ns1 := by
              cases h; rfl
            subst hns
            intro n hn
            rcases List.mem_cons.mp hn with hn | hn
            · subst hn
              refine ⟨_, _, rfl, _, rfl, ?_⟩
              intro op x y hop
              have : op = "==" := by
                have := hop
                injection this with h1 h2 h3
                exact h1.symm
              exact this
            · exact visitCases_ops m f d rest st2 ns1 st3 hr n hn

/-- C2 (amended, proved).  For every lowered switch statement, every
emitted `IfDirective`'s test is `fallthrough || rhs` where any binary
comparison `rhs` carries the fixed operator `==` — the operator is a
constant of the transform (an earlier revision of the walker hard-coded
`===` instead), independent of the source program. -/
theorem switch_equality_operator_always_loose (loc : Option Loc) (discriminant : JsNode)
    (cases : List (Option JsNode × List JsNode)) (st : TState) (n : VtlNode) (st' : TState)
    (h : visit (.switchStatement loc discriminant cases) st = .ok (n, st')) :
    ∃ stmts, n = .statementList stmts ∧ ∀ s ∈ stmts, ∀ t c a fl,
      s = .ifDirective t c a fl →
        ∃ fRef rhs, t = .binaryExpression "||" fRef rhs ∧
          ∀ op x y, rhs = .binaryExpression op x y → op = "==" := by
  rw [visit_switchStatement] at h
  cases hd : visit discriminant st with
  | error e => rw [hd] at h; exact absurd h (by simp)
  | ok v =>
    obtain ⟨dv, st1⟩ := v
    rw [hd] at h
    dsimp only [] at h
    cases hc : visitCases (declVarRef (.identifier "matched") st1).1
        (declVarRef (.identifier "fallthrough") (declVarRef (.identifier "matched") st1).2).1
        (declVarRef (.identifier "discriminant")
          (declVarRef (.identifier "fallthrough")
            (declVarRef (.identifier "matched") st1).2).2).1 cases
        (declVarRef (.identifier "discriminant")
          (declVarRef (.identifier "fallthrough")
            (declVarRef (.identifier "matched") st1).2).2).2 with
    | error e => rw [hc] at h; exact absurd h (by simp)
    | ok w =>
      obtain ⟨caseIfs, st5⟩ := w
      rw [hc] at h
      dsimp only [] at h
      have hn : n = .statementList
          ([.setDirective (declVarRef (.identifier "matched") st1).1 (.literal (.bool false)),
            .setDirective (declVarRef (.identifier "fallthrough")
              (declVarRef (.identifier "matched") st1).2).1 (.literal (.bool false)),
            .setDirective (declVarRef (.identifier "discriminant")
              (declVarRef (.identifier "fallthrough")
                (declVarRef (.identifier "matched") st1).2).2).1 dv] ++ caseIfs) := by
        cases h; rfl
      refine ⟨_, hn, ?_⟩
      intro s hs t c a fl hsif
      subst hn
      rcases List.mem_append.mp hs with hs | hs
      · simp only [List.mem_cons, List.not_mem_nil, or_false] at hs
        rcases hs with hs | hs | hs
        · exact absurd hsif (by rw [hs]; simp)
        · exact absurd hsif (by rw [hs]; simp)
        · exact absurd hsif (by rw [hs]; simp)
      · obtain ⟨t', c', hdir, rhs, hrhs, hop⟩ :=
          visitCases_ops _ _ _ cases _ caseIfs st5 hc s hs
        rw [hsif] at hdir
        injection hdir with h1 h2 h3 h4
        subst h1
        exact ⟨_, rhs, hrhs, hop⟩

/-- Witness for C2's amended theorem at the concrete probe switch. -/
theorem switch_equality_operator_always_loose_witness :
    ∃ stmts, switchOpProbeNode = .statementList stmts ∧ ∀ s ∈ stmts, ∀ t c a fl,
      s = .ifDirective t c a fl →
        ∃ fRef rhs, t = .binaryExpression "||" fRef rhs ∧
          ∀ op x y, rhs = .binaryExpression op x y → op = "==" :=
  switch_equality_operator_always_loose none (.identifier none "x")
    [(some (.literal none (.int 1)), [.breakStatement none])] probeState
    switchOpProbeNode switchOpProbeEndState rfl

/-- Hand-stated unfolding equations for `visit` (the automatic equation
generator fails on `visit`'s size; structural recursion makes each one
`rfl`).  Each mirrors one walker handler verbatim. -/
theorem visit_identifier (l : Option Loc) (n : String) (st : TState) :
    visit (.identifier l n) st = .ok (.identifier n, st) := rfl

theorem visit_literal (l : Option Loc) (v : JsLit) (st : TState) :
    visit (.literal l v) st = .ok (.literal v, st) := rfl

theorem visit_breakStatement (l : Option Loc) (st : TState) :
    visit (.breakStatement l) st =
      .error (reportError "'break' statements are not supported" l) := rfl

theorem visit_whileStatement (l : Option Loc) (st : TState) :
    visit (.whileStatement l) st =
      .error (reportError "'while' loops are not supported" l) := rfl

theorem visit_arrayExpression (l : Option Loc) (elems : List (Option JsNode)) (st : TState) :
    visit (.arrayExpression l elems) st =
      match visitElems l elems st with
      | .error e => .error e
      | .ok (vals, st1) => .ok (.arrayList vals, st1) := rfl

theorem visit_assignmentExpression (l : Option Loc) (op : String) (left right : JsNode)
    (st : TState) :
    visit (.assignmentExpression l op left right) st =
      match visit left st with
      | .error e => .error e
      | .ok (lv, st1) =>
        match visit right st1 with
        | .error e => .error e
        | .ok (rv, st2) => .ok (.binaryExpression op lv rv, st2) := rfl

theorem visit_binaryExpression (l : Option Loc) (op : String) (left right : JsNode)
    (st : TState) :
    visit (.binaryExpression l op left right) st =
      match visit left st with
      | .error e => .error e
      | .ok (lraw, st1) =>
        match nonDeclVarRef lraw st1 left with
        | .error e => .error e
        | .ok lv =>
          match visit right st1 with
          | .error e => .error e
          | .ok (rraw, st2) =>
            match nonDeclVarRef rraw st2 right with
            | .error e => .error e
            | .ok rv => .ok (.binaryExpression op lv rv, st2) := rfl

theorem visit_blockStatement (l : Option Loc) (body : List JsNode) (st : TState) :
    visit (.blockStatement l body) st =
      match visitStmts body (enterScope st) with
      | .error e => .error e
      | .ok (stmts, st1) => .ok (.statementList stmts, exitScope st1) := rfl

theorem visit_callExpression (l : Option Loc) (callee : JsNode) (args : List JsNode)
    (st : TState) :
    visit (.callExpression l callee args) st =
      match visit callee st with
      | .error e => .error e
      | .ok (propertyRef, st1) =>
        match callee with
        | .memberExpression _ _ _ =>
          match visitArgs args st1 with
          | .error e => .error e
          | .ok (argNodes, st2) => .ok (mkMethodReference propertyRef argNodes, st2)
        | .identifier _ n =>
          if n == "Symbol" then
            .error (reportError "symbol data types are not supported" l)
          else
            .error (reportError ("non-method functions are not supported: " ++ n) l)
        | _ => .error (reportError "non-method functions are not supported: null" l) := rfl

theorem visit_expressionStatement (l : Option Loc) (expression : JsNode) (st : TState) :
    visit (.expressionStatement l expression) st =
      match visit expression st with
      | .error e => .error e
      | .ok (expr, st1) =>
        match expression with
        | .assignmentExpression _ _ _ _ =>
          let exprLeft := match expr with | .binaryExpression _ lv _ => lv | _ => .nullNode
          let exprRight := match expr with | .binaryExpression _ _ rv => rv | _ => .nullNode
          match nonDeclVarRef exprLeft st1 expression with
          | .error e => .error e
          | .ok reference => .ok (.setDirective reference exprRight, st1)
        | _ =>
          match nonDeclVarRef (.identifier kDiscardName) st1 expression with
          | .error e => .error e
          | .ok reference => .ok (.setDirective reference expr, st1) := rfl

theorem visit_forOfStatement (l : Option Loc) (left right body : JsNode) (st : TState) :
    visit (.forOfStatement l left right body) st =
      match visit left st with
      | .error e => .error e
      | .ok (leftNode, st1) =>
        match leftNode with
        | .statementList (iterator :: _) =>
          match nonDeclVarRef iterator st1 left with
          | .error e => .error e
          | .ok iteratorRef =>
            match visit right st1 with
            | .error e => .error e
            | .ok (iterable, st2) =>
              match nonDeclVarRef iterable st2 right with
              | .error e => .error e
              | .ok iterableRef =>
                match visit body st2 with
                | .error e => .error e
                | .ok (bodyNode, st3) =>
                  .ok (.forEachDirective iteratorRef iterableRef bodyNode, st3)
        | _ =>
          .error (.typeError "Cannot read properties of undefined (reading '0')") := rfl

theorem visit_memberExpression (l : Option Loc) (obj prop : JsNode) (st : TState) :
    visit (.memberExpression l obj prop) st =
      match visit obj st with
      | .error e => .error e
      | .ok (receiver, st1) =>
        match visit prop st1 with
        | .error e => .error e
        | .ok (property, st2) => .ok (mkPropertyReference receiver property, st2) := rfl

theorem visit_objectExpression (l : Option Loc)
    (props : List (Option Loc × Bool × Bool × String × JsNode × JsNode)) (st : TState) :
    visit (.objectExpression l props) st =
      match visitProperties props st with
      | .error e => .error e
      | .ok (entries, st1) => .ok (.mapNode entries, st1) := rfl

theorem visit_program (l : Option Loc) (body : List JsNode) (st : TState) :
    visit (.program l body) st =
      match visitStmts body (registerEnvGlobals (enterScope st)) with
      | .error e => .error e
      | .ok (stmts, st1) => .ok (.statementList stmts, exitScope st1) := rfl

theorem visit_unaryExpression (l : Option Loc) (op : String) (argument : JsNode)
    (pfx : Bool) (st : TState) :
    visit (.unaryExpression l op argument pfx) st =
      match visit argument st with
      | .error e => .error e
      | .ok (arg, st1) => .ok (.unaryExpression op arg pfx, st1) := rfl

theorem visit_variableDeclaration (l : Option Loc) (decls : List JsNode) (st : TState) :
    visit (.variableDeclaration l decls) st =
      match visitStmts decls st with
      | .error e => .error e
      | .ok (stmts, st1) => .ok (.statementList stmts, st1) := rfl

/-- A bare identifier in call-argument position is resolved through scope
lookup; an unresolved name is a hard error naming it and its location. -/
theorem resolve_call_arg (name : String) (st : TState) (cloc mloc oloc ploc aloc : Option Loc)
    (h : st.scope.lookup name = none) :
    visit (.callExpression cloc
      (.memberExpression mloc (.identifier oloc "o") (.identifier ploc "m"))
      [.identifier aloc name]) st =
      .error (reportError ("variable '" ++ name ++ "' was not declared") aloc) := by
  simp only [visit_callExpression, visit_memberExpression, visit_identifier, visitArgs,
    nonDeclVarRef, h, mkPropertyReference, mkMethodReference, JsNode.loc]

/-- A bare identifier as an array element is resolved through scope lookup;
an unresolved name is a hard error naming it and its location. -/
theorem resolve_array_element (name : String) (st : TState) (aloc eloc : Option Loc)
    (h : st.scope.lookup name = none) :
    visit (.arrayExpression aloc [some (.identifier eloc name)]) st =
      .error (reportError ("variable '" ++ name ++ "' was not declared") eloc) := by
  simp only [visit_arrayExpression, visitElems, visit_identifier, nonDeclVarRef, h,
    JsNode.loc]

/-- A bare identifier as an object property value is resolved through scope
lookup; an unresolved name is a hard error naming it and its location. -/
theorem resolve_object_value (name : String) (st : TState) (oloc ploc kloc vloc : Option Loc)
    (h : st.scope.lookup name = none) :
    visit (.objectExpression oloc
      [(ploc, false, false, "init", .identifier kloc "k", .identifier vloc name)]) st =
      .error (reportError ("variable '" ++ name ++ "' was not declared") vloc) := by
  simp only [visit_objectExpression, visitProperties, visit_identifier, nonDeclVarRef, h,
    JsNode.loc]
  simp

/-- The bare identifier on an assignment statement's left-hand side is
resolved through scope lookup; an unresolved name is a hard error (located
at the assignment expression). -/
theorem resolve_assignment_lhs (name : String) (st : TState)
    (sloc aloc lloc rloc : Option Loc) (h : st.scope.lookup name = none) :
    visit (.expressionStatement sloc (.assignmentExpression aloc "="
      (.identifier lloc name) (.literal rloc (.int 1)))) st =
      .error (reportError ("variable '" ++ name ++ "' was not declared") aloc) := by
  simp only [visit_expressionStatement, visit_assignmentExpression, visit_identifier,
    visit_literal, nonDeclVarRef, h, JsNode.loc]

/-- A bare identifier as the assignment right-hand side is NOT resolved:
whatever its declaration status, it is emitted verbatim and the visit
succeeds. -/
theorem passthrough_assignment_rhs (name tgt : String) (st : TState)
    (sloc aloc lloc rloc : Option Loc) (hA : st.scope.lookup "a" = some tgt) :
    visit (.expressionStatement sloc (.assignmentExpression aloc "="
      (.identifier lloc "a") (.identifier rloc name))) st =
      .ok (.setDirective (.variableReference tgt) (.identifier name), st) := by
  simp only [visit_expressionStatement, visit_assignmentExpression, visit_identifier,
    nonDeclVarRef, hA, JsNode.loc]

/-- Looking a name up immediately after declaring it yields the assigned
target. -/
theorem lookup_symbol_self (t : SymbolTable) (n : String) :
    (t.symbol n).2.lookup n = some (t.symbol n).1 := by
  unfold SymbolTable.symbol SymbolTable.lookup
  cases t.frames with
  | nil => simp [framesLookup, List.lookup]
  | cons f rest => simp [framesLookup, List.lookup]

/-- Declaring one name does not change the resolution of any other name. -/
theorem lookup_symbol_ne (t : SymbolTable) (n m : String) (h : m ≠ n) :
    (t.symbol n).2.lookup m = t.lookup m := by
  unfold SymbolTable.symbol SymbolTable.lookup
  cases t.frames with
  | nil =>
    simp only [framesLookup, List.lookup]
    have hb : (m == n) = false := beq_eq_false_iff_ne.mpr h
    simp [hb, framesLookup]
  | cons f rest =>
    simp only [framesLookup, List.lookup]
    have hb : (m == n) = false := beq_eq_false_iff_ne.mpr h
    simp [hb]

/-- C3 (counterexample).  A program whose assignment right-hand side is the
undeclared bare identifier `bar` and whose switch discriminant is the
undeclared bare identifier `baz` transpiles successfully — no scope lookup
happens and no error is raised for either position; both names are emitted
verbatim in the output. -/
theorem unresolved_passthrough_counterexample :
    transpileAst unresolvedProbe [] =
      .ok ("#set( $foo = 1 )\n#set( $foo = bar )\n#set( $matched = false )\n" ++
           "#set( $fallthrough = false )\n#set( $discriminant = baz )\n") := rfl

/-- Visiting the declaration `const it;` declares `it` and returns the bare
identifier node (no initializer, nothing emitted for it). -/
theorem visit_itDecl (dloc dcloc iloc : Option Loc) (st : TState) :
    visit (.variableDeclaration dloc
      [.variableDeclarator dcloc (.identifier iloc "it") none]) st =
      .ok (.statementList [.identifier "it"],
           { st with scope := (st.scope.symbol "it").2 }) := rfl

/-- A bare identifier in for-of iterable position is resolved through scope
lookup (after the iterator is declared); an unresolved name is a hard error
naming it and its location. -/
theorem resolve_forof_iterable (name : String) (st : TState)
    (floc dloc dcloc iloc rloc bloc : Option Loc)
    (hne : name ≠ "it") (h : st.scope.lookup name = none) :
    visit (.forOfStatement floc
      (.variableDeclaration dloc
        [.variableDeclarator dcloc (.identifier iloc "it") none])
      (.identifier rloc name) (.blockStatement bloc [])) st =
      .error (reportError ("variable '" ++ name ++ "' was not declared") rloc) := by
  have hv : visit (.forOfStatement floc
      (.variableDeclaration dloc
        [.variableDeclarator dcloc (.identifier iloc "it") none])
      (.identifier rloc name) (.blockStatement bloc [])) st =
      match nonDeclVarRef (.identifier "it")
          { st with scope := (st.scope.symbol "it").2 }
          (.variableDeclaration dloc
            [.variableDeclarator dcloc (.identifier iloc "it") none]) with
      | .error e => .error e
      | .ok iteratorRef =>
        match nonDeclVarRef (.identifier name)
            { st with scope := (st.scope.symbol "it").2 } (.identifier rloc name) with
        | .error e => .error e
        | .ok iterableRef =>
          .ok (.forEachDirective iteratorRef iterableRef (.statementList []),
               { st with scope := (st.scope.symbol "it").2 }) := rfl
  rw [hv]
  have h1 : ({ st with scope := (st.scope.symbol "it").2 } : TState).scope.lookup "it" =
      some (st.scope.symbol "it").1 := lookup_symbol_self st.scope "it"
  have h2 : ({ st with scope := (st.scope.symbol "it").2 } : TState).scope.lookup name =
      none := by
    show (st.scope.symbol "it").2.lookup name = none
    rw [lookup_symbol_ne st.scope "it" name hne, h]
  simp only [nonDeclVarRef, h1, h2, JsNode.loc]

/-- A bare identifier as a switch discriminant is NOT resolved: the visit
succeeds and the third emitted `SetDirective` assigns the bare identifier,
whatever its declaration status. -/
theorem passthrough_switch_discriminant (name : String) (st : TState)
    (swloc idloc : Option Loc) :
    visit (.switchStatement swloc (.identifier idloc name) []) st =
      .ok (.statementList
        [.setDirective (.variableReference (st.scope.symbol "matched").1)
           (.literal (.bool false)),
         .setDirective
           (.variableReference ((st.scope.symbol "matched").2.symbol "fallthrough").1)
           (.literal (.bool false)),
         .setDirective
           (.variableReference
             (((st.scope.symbol "matched").2.symbol "fallthrough").2.symbol
               "discriminant").1)
           (.identifier name)],
       { st with scope :=
           (((st.scope.symbol "matched").2.symbol "fallthrough").2.symbol
             "discriminant").2 }) := rfl

/-- C3 (amended, proved).  Bare identifiers in call-argument, array-element,
object-value and for-of-iterable positions, and the assignment left-hand
side, are resolved through scope lookup with a hard error naming the
identifier and its source location when the name was never declared; but a
bare identifier as an assignment right-hand side, and the switch
discriminant, pass through without lookup and cause no error. -/
theorem identifier_resolution_positions :
    (∀ (name : String) (st : TState) (cloc mloc oloc ploc aloc : Option Loc),
      st.scope.lookup name = none →
      visit (.callExpression cloc
        (.memberExpression mloc (.identifier oloc "o") (.identifier ploc "m"))
        [.identifier aloc name]) st =
        .error (reportError ("variable '" ++ name ++ "' was not declared") aloc)) ∧
    (∀ (name : String) (st : TState) (aloc eloc : Option Loc),
      st.scope.lookup name = none →
      visit (.arrayExpression aloc [some (.identifier eloc name)]) st =
        .error (reportError ("variable '" ++ name ++ "' was not declared") eloc)) ∧
    (∀ (name : String) (st : TState) (oloc ploc kloc vloc : Option Loc),
      st.scope.lookup name = none →
      visit (.objectExpression oloc
        [(ploc, false, false, "init", .identifier kloc "k", .identifier vloc name)]) st =
        .error (reportError ("variable '" ++ name ++ "' was not declared") vloc)) ∧
    (∀ (name : String) (st : TState) (floc dloc dcloc iloc rloc bloc : Option Loc),
      name ≠ "it" → st.scope.lookup name = none →
      visit (.forOfStatement floc
        (.variableDeclaration dloc
          [.variableDeclarator dcloc (.identifier iloc "it") none])
        (.identifier rloc name) (.blockStatement bloc [])) st =
        .error (reportError ("variable '" ++ name ++ "' was not declared") rloc)) ∧
    (∀ (name : String) (st : TState) (sloc aloc lloc rloc : Option Loc),
      st.scope.lookup name = none →
      visit (.expressionStatement sloc (.assignmentExpression aloc "="
        (.identifier lloc name) (.literal rloc (.int 1)))) st =
        .error (reportError ("variable '" ++ name ++ "' was not declared") aloc)) ∧
    (∀ (name tgt : String) (st : TState) (sloc aloc lloc rloc : Option Loc),
      st.scope.lookup "a" = some tgt →
      visit (.expressionStatement sloc (.assignmentExpression aloc "="
        (.identifier lloc "a") (.identifier rloc name))) st =
        .ok (.setDirective (.variableReference tgt) (.identifier name), st)) ∧
    (∀ (name : String) (st : TState) (swloc idloc : Option Loc),
      ∃ mt ft dt st2,
        visit (.switchStatement swloc (.identifier idloc name) []) st =
          .ok (.statementList
            [.setDirective (.variableReference mt) (.literal (.bool false)),
             .setDirective (.variableReference ft) (.literal (.bool false)),
             .setDirective (.variableReference dt) (.identifier name)], st2)) :=
  ⟨fun name st cloc mloc oloc ploc aloc h =>
      resolve_call_arg name st cloc mloc oloc ploc aloc h,
   fun name st aloc eloc h => resolve_array_element name st aloc eloc h,
   fun name st oloc ploc kloc vloc h => resolve_object_value name st oloc ploc kloc vloc h,
   fun name st floc dloc dcloc iloc rloc bloc hne h =>
      resolve_forof_iterable name st floc dloc dcloc iloc rloc bloc hne h,
   fun name st sloc aloc lloc rloc h => resolve_assignment_lhs name st sloc aloc lloc rloc h,
   fun name tgt st sloc aloc lloc rloc hA =>
      passthrough_assignment_rhs name tgt st sloc aloc lloc rloc hA,
   fun name st swloc idloc =>
      ⟨_, _, _, _, passthrough_switch_discriminant name st swloc idloc⟩⟩

/-- Witness for C3's amended theorem: the undeclared name `q` as an array
element, at a concrete state. -/
theorem identifier_resolution_positions_witness :
    probeState.scope.lookup "q" = none ∧
    visit (.arrayExpression none [some (.identifier none "q")]) probeState =
      .error (reportError "variable 'q' was not declared" none) :=
  ⟨rfl, identifier_resolution_positions.2.1 "q" probeState none none rfl⟩

/-- Declaring a name bumps its own suffix counter by one. -/
theorem counterOf_symbol_self (t : SymbolTable) (n : String) :
    (t.symbol n).2.counterOf n = t.counterOf n + 1 := by
  unfold SymbolTable.symbol SymbolTable.counterOf
  simp [List.lookup]

/-- Declaring a name leaves every other base name's counter unchanged. -/
theorem counterOf_symbol_ne (t : SymbolTable) (n m : String) (h : m ≠ n) :
    (t.symbol n).2.counterOf m = t.counterOf m := by
  unfold SymbolTable.symbol SymbolTable.counterOf
  have hb : (m == n) = false := beq_eq_false_iff_ne.mpr h
  simp [List.lookup, hb]

/-- The target a declaration returns is the base name carrying the current
counter's suffix. -/
theorem symbol_fst (t : SymbolTable) (n : String) :
    (t.symbol n).1 = targetName n (t.counterOf n) := rfl

/-- Unfolding equation for `runCollect` on a declaration. -/
theorem runCollect_declare (t : SymbolTable) (n : String) (rest : List ScopeOp) :
    runCollect t (.declare n :: rest) =
      (n, (t.symbol n).1) :: runCollect (t.symbol n).2 rest := rfl

/-- Over any operation sequence, the targets handed out for one base name
are exactly the suffix sequence continuing from the table's current
counter; frame pushes and pops never disturb it. -/
theorem runCollect_filter : ∀ (ops : List ScopeOp) (t : SymbolTable) (b : String),
    ((runCollect t ops).filter (fun p => p.1 == b)).map (fun p => p.2) =
      (List.range (countDeclares ops b)).map (fun i => targetName b (t.counterOf b + i))
  | [], t, b => by simp [runCollect, countDeclares]
  | .declare n :: rest, t, b => by
    rw [runCollect_declare]
    by_cases h : n = b
    · subst h
      have hcount : countDeclares (.declare n :: rest) n = countDeclares rest n + 1 := by
        simp [countDeclares]
      rw [hcount, List.range_succ_eq_map]
      simp only [List.filter_cons, List.map_cons, List.map_map, beq_self_eq_true, if_true]
      rw [symbol_fst]
      have ih := runCollect_filter rest (t.symbol n).2 n
      rw [counterOf_symbol_self] at ih
      rw [ih]
      simp only [Nat.add_zero, List.map_map]
      congr 1
      apply List.map_congr_left
      intro i _
      simp only [Function.comp_apply]
      congr 1
      omega
    · have hb : (n == b) = false := beq_eq_false_iff_ne.mpr h
      have hcount : countDeclares (.declare n :: rest) b = countDeclares rest b := by
        simp [countDeclares, hb]
      rw [hcount]
      simp only [List.filter_cons, hb, if_false]
      have ih := runCollect_filter rest (t.symbol n).2 b
      rw [counterOf_symbol_ne t n b (Ne.symm h)] at ih
      exact ih
  | .enter :: rest, t, b => by
    rw [runCollect]
    exact runCollect_filter rest t.createNestedScope b
  | .exit :: rest, t, b => by
    rw [runCollect]
    exact runCollect_filter rest t.parent b

/-- C4 (confirmed; the symbol table is modelled from the spec, its source
file not being among the staged sources).  Within one transpilation call,
the `j`-th declaration of a base name (counting from 0, across frames,
nesting and already-exited frames alike) yields `targetName b j`: the bare
base name for the first declaration, `b_1` for the second, `b_2` for the
third, and so on — a strictly increasing numeric suffix per base name. -/
theorem scope_suffix_sequence :
    (∀ (ops : List ScopeOp) (b : String),
      declaredTargets ops b =
        (List.range (countDeclares ops b)).map (targetName b)) ∧
    (∀ b : String, targetName b 0 = b) ∧
    (∀ (b : String) (j : Nat), j ≠ 0 → targetName b j = b ++ "_" ++ toString j) := by
  refine ⟨?_, ?_, ?_⟩
  · intro ops b
    unfold declaredTargets
    have h := runCollect_filter ops { frames := [], counters := [] } b
    have hz : ({ frames := [], counters := [] } : SymbolTable).counterOf b = 0 := rfl
    rw [hz] at h
    simpa using h
  · intro b
    simp [targetName]
  · intro b j hj
    simp [targetName, hj]

/-- Witness for C4: declaring `a` three times across a nested frame yields
`a`, `a_1`, `a_2`. -/
theorem scope_suffix_sequence_witness :
    declaredTargets [.declare "a", .enter, .declare "a", .exit, .declare "a"] "a" =
      ["a", "a_1", "a_2"] ∧ targetName "a" 2 = "a_2" :=
  ⟨by rw [scope_suffix_sequence.1]; rfl, scope_suffix_sequence.2.2 "a" 2 (by decide)⟩

/-- A non-chain node renders no spine sigil. -/
theorem rootCount_nonchain (n : VtlNode) (h : isChainNode n = false) : rootCount n = 0 := by
  cases n <;> first | rfl | simp [isChainNode] at h

/-- Wrapping a non-chain receiver adjusts nothing on it. -/
theorem mkPropertyReference_nonchain (base p : VtlNode) (h : isChainNode base = false) :
    mkPropertyReference base p = .propertyReference base p true := by
  cases base <;> first | rfl | simp [isChainNode] at h

/-- The chain induction: once the chain built so far has exactly one root
flag set (at its property head), every further transform-shaped link
preserves that — `mkPropertyReference` clears the old head's flag while
setting its own, and `mkMethodReference` leaves the flags alone. -/
theorem buildChain_invariant : ∀ (links : List ChainLink) (s : Bool) (n : VtlNode),
    (if s then ∃ r p, n = .propertyReference r p true ∧ rootCount n = 1
     else ∃ r p args, n = .methodReference (.propertyReference r p true) args ∧
       rootCount n = 1) →
    wfAux s links = true → rootCount (buildChain n links) = 1
  | [], s, n, hg, _ => by
    cases s with
    | true => obtain ⟨r, p, hn, hc⟩ := hg; exact hc
    | false => obtain ⟨r, p, args, hn, hc⟩ := hg; exact hc
  | .property p :: rest, s, n, hg, hwf => by
    rw [buildChain]
    have hwf' : wfAux true rest = true := by
      cases s <;> simpa [wfAux] using hwf
    apply buildChain_invariant rest true
    · cases s with
      | true =>
        obtain ⟨r, q, hn, hc⟩ := hg
        subst hn
        simp [rootCount] at hc
        refine ⟨_, _, rfl, ?_⟩
        simp [mkPropertyReference, rootCount]
        omega
      | false =>
        obtain ⟨r, q, args, hn, hc⟩ := hg
        subst hn
        simp [rootCount] at hc
        refine ⟨_, _, rfl, ?_⟩
        simp [mkPropertyReference, rootCount]
        omega
    · exact hwf'
  | .call args :: rest, s, n, hg, hwf => by
    rw [buildChain]
    have hs : s = true := by
      cases s
      · simp [wfAux] at hwf
      · rfl
    subst hs
    obtain ⟨r, q, hn, hc⟩ := hg
    subst hn
    have hwf' : wfAux false rest = true := by simpa [wfAux] using hwf
    apply buildChain_invariant rest false
    · exact ⟨r, q, args, rfl, by simpa [mkMethodReference, rootCount] using hc⟩
    · exact hwf'

/-- C5 (confirmed).  Constructing a `PropertyReference` over a chain-node
receiver clears the receiver's root flag (for a `MethodReference`
receiver, the flag of its property chain), and in every chain built by the
transform's constructors from a non-chain base, exactly one spine node
carries the root flag — the outermost — so the chain renders exactly one
`$` sigil; the claim's own example `foo.bar().baz` renders as
`$foo.bar().baz`. -/
theorem chain_single_root :
    (∀ r p flag q, mkPropertyReference (.propertyReference r p flag) q =
      .propertyReference (.propertyReference r p false) q true) ∧
    (∀ r p flag args q,
      mkPropertyReference (.methodReference (.propertyReference r p flag) args) q =
        .propertyReference (.methodReference (.propertyReference r p false) args) q true) ∧
    (∀ (base : VtlNode) (links : List ChainLink), isChainNode base = false →
      wfLinks links = true → rootCount (buildChain base links) = 1) ∧
    (VtlNode.render (buildChain (.identifier "foo")
      [.property (.identifier "bar"), .call [], .property (.identifier "baz")]) =
      "$foo.bar().baz") := by
  refine ⟨fun r p flag q => rfl, fun r p flag args q => rfl, ?_, rfl⟩
  intro base links hbase hwf
  cases links with
  | nil => simp [wfLinks] at hwf
  | cons l rest =>
    cases l with
    | call args => simp [wfLinks] at hwf
    | property p =>
      rw [buildChain, mkPropertyReference_nonchain base p hbase]
      apply buildChain_invariant rest true
      · refine ⟨base, p, rfl, ?_⟩
        simp [rootCount, rootCount_nonchain base hbase]
      · simpa [wfLinks] using hwf

/-- Witness for C5 at the `foo.bar().baz` chain. -/
theorem chain_single_root_witness :
    isChainNode (.identifier "foo") = false ∧
    wfLinks [.property (.identifier "bar"), .call [], .property (.identifier "baz")] =
      true ∧
    rootCount (buildChain (.identifier "foo")
      [.property (.identifier "bar"), .call [], .property (.identifier "baz")]) = 1 :=
  ⟨rfl, rfl, chain_single_root.2.2.1 (.identifier "foo")
    [.property (.identifier "bar"), .call [], .property (.identifier "baz")] rfl rfl⟩

/-- C6 (confirmed).  `BinaryExpressionNode` rendering parenthesizes an
operand iff the operand is itself a `BinaryExpressionNode` whose precedence
is strictly lower than the parent operator's, with `+`/`-` at precedence 1
and `*`/`/` at 2; equal precedence is never parenthesized, and operators
outside the table (comparison, equality, logical or) have no precedence and
neither cause nor receive parenthesization by this rule. -/
theorem binary_parenthesization :
    (∀ (op : String) (l r : VtlNode),
      VtlNode.render (.binaryExpression op l r) =
        (if needsParens (VtlNode.precedence l) (operatorPrecedence op)
         then "(" ++ VtlNode.render l ++ ")" else VtlNode.render l) ++ " " ++ op ++ " " ++
        (if needsParens (VtlNode.precedence r) (operatorPrecedence op)
         then "(" ++ VtlNode.render r ++ ")" else VtlNode.render r)) ∧
    (∀ (l : VtlNode) (op : String),
      needsParens (VtlNode.precedence l) (operatorPrecedence op) = true ↔
        ∃ lop ll lr lp pp, l = .binaryExpression lop ll lr ∧
          operatorPrecedence lop = some lp ∧ operatorPrecedence op = some pp ∧ lp < pp) ∧
    (operatorPrecedence "+" = some 1 ∧ operatorPrecedence "-" = some 1 ∧
     operatorPrecedence "*" = some 2 ∧ operatorPrecedence "/" = some 2 ∧
     operatorPrecedence "==" = none ∧ operatorPrecedence "===" = none ∧
     operatorPrecedence "<" = none ∧ operatorPrecedence "||" = none) ∧
    (∀ (op lop : String) (ll lr : VtlNode),
      operatorPrecedence lop = operatorPrecedence op →
      needsParens (VtlNode.precedence (.binaryExpression lop ll lr))
        (operatorPrecedence op) = false) := by
  refine ⟨fun op l r => rfl, ?_, by decide, ?_⟩
  · intro l op
    constructor
    · intro h
      cases l with
      | binaryExpression lop ll lr =>
        simp only [VtlNode.precedence] at h
        cases hl : operatorPrecedence lop with
        | none => rw [hl] at h; simp [needsParens] at h
        | some lp =>
          cases hp : operatorPrecedence op with
          | none => rw [hl, hp] at h; simp [needsParens] at h
          | some pp =>
            rw [hl, hp] at h
            simp only [needsParens, decide_eq_true_eq] at h
            exact ⟨lop, ll, lr, lp, pp, rfl, hl, rfl, h⟩
      | _ => simp [VtlNode.precedence, needsParens] at h
    · rintro ⟨lop, ll, lr, lp, pp, rfl, hl, hp, hlt⟩
      simp [VtlNode.precedence, needsParens, hl, hp, hlt]
  · intro op lop ll lr heq
    simp only [VtlNode.precedence, heq]
    cases operatorPrecedence op with
    | none => rfl
    | some p => simp [needsParens]

/-- Witness for C6: an additive operand under an additive parent (equal
precedence) is not parenthesized. -/
theorem binary_parenthesization_witness :
    needsParens (VtlNode.precedence
      (.binaryExpression "-" (.literal (.int 1)) (.literal (.int 2))))
      (operatorPrecedence "+") = false :=
  binary_parenthesization.2.2.2 "+" "-" (.literal (.int 1)) (.literal (.int 2)) rfl

/-- C7 (code bug).  A declarator with no initializer is NOT unobservable:
for `let x;` the walker leaves `state.lastChild` holding the bare
`IdentifierNode x` set by visiting the declarator's id, the declaration
loop pushes that stale node as a statement, and the rendered output is the
text `x` — nonempty observable output where the claim (and the data model's
own rule that an `Identifier` is never rendered as a statement) says
nothing may be emitted. -/
theorem null_init_declarator_leaks_identifier :
    transpileAst letWithoutInitProbe [] = .ok "x" ∧ ("x" : String) ≠ "" :=
  ⟨rfl, by decide⟩

/-- C8 (code bug).  The `IfStatement` walker evaluates
`node.alternate.type` unconditionally, so a conditional with no `else`
branch crashes with a `TypeError` instead of succeeding; the claim is right
about the model — `IfDirectiveNode` with no alternate renders as
`#if( test )`, the indented consequent and `#end` with no `#else` — but
the transform never gets there. -/
theorem if_without_else_crashes :
    transpileAst ifWithoutElseProbe [] =
      .error (.typeError "Cannot read properties of null (reading 'type')") ∧
    serialize (.ifDirective (.identifier "t")
      (.statementList [.setDirective (.variableReference "a") (.literal (.int 1))])
      none false) {} =
      ({}, .ok ("#if( t )\n  #set( $a = 1 )\n#end\n")) :=
  ⟨rfl, rfl⟩

/-- C9 (confirmed).  `reportError` builds exactly
`Line <L>, column <C>: <reason>` when the offending node carries a
location (the stored 0-based column reported 1-based) and exactly
`<reason>` when it does not; end to end, the repository's own
undeclared-variable test input produces exactly
`Line 2, column 21: variable 'bar' was not declared`, and an unlocated
unsupported construct produces the bare reason. -/
theorem error_message_format :
    (∀ (message : String) (line column : Nat),
      reportError message (some (Loc.mk line column)) =
        .reported ("Line " ++ toString line ++ ", column " ++ toString (column + 1) ++
          ": " ++ message)) ∧
    (∀ message : String, reportError message none = .reported message) ∧
    transpileAst undeclaredBinaryProbe [] =
      .error (.reported "Line 2, column 21: variable 'bar' was not declared") ∧
    transpileAst whileProbe [] =
      .error (.reported "'while' loops are not supported") :=
  ⟨fun _ _ _ => rfl, fun _ => rfl, rfl, rfl⟩

/-- Hand-stated unfolding equations for `serialize` (the automatic equation
generator fails on its size; each is `rfl` by structural reduction). -/
theorem ser_nullNode (ctx : SerializationContext) :
    serialize .nullNode ctx = (ctx, .error .typeError) := rfl

theorem ser_statementList (stmts : List VtlNode) (ctx : SerializationContext) :
    serialize (.statementList stmts) ctx = serializeList stmts ctx := rfl

theorem ser_forEachDirective (itr itbl body : VtlNode) (ctx : SerializationContext) :
    serialize (.forEachDirective itr itbl body) ctx =
      (match serialize body ctx.indent with
      | (ctx2, .error e) => (ctx2, .error e)
      | (ctx2, .ok bodyStr) =>
        (ctx2.dedent, .ok ("#foreach( " ++ VtlNode.render itr ++ " in " ++
          VtlNode.render itbl ++ " )" ++ ctx.eol ++ bodyStr ++ "#end"))) := rfl

theorem ser_ifDirective_none (test consequent : VtlNode) (isElseIf : Bool)
    (ctx : SerializationContext) :
    serialize (.ifDirective test consequent none isElseIf) ctx =
      (match serialize test ctx with
      | (ctx1, .error e) => (ctx1, .error e)
      | (ctx1, .ok testStr) =>
        let head := "#" ++ (if isElseIf then "elseif" else "if") ++ "( " ++ testStr ++
          " )" ++ ctx.eol
        match serialize consequent ctx1.indent with
        | (ctx3, .error e) => (ctx3, .error e)
        | (ctx3, .ok consStr) =>
          (ctx3.dedent, .ok (head ++ consStr ++ "#end" ++ ctx.eol))) := rfl

theorem ser_ifDirective_some (test consequent a : VtlNode) (isElseIf : Bool)
    (ctx : SerializationContext) :
    serialize (.ifDirective test consequent (some a) isElseIf) ctx =
      (match serialize test ctx with
      | (ctx1, .error e) => (ctx1, .error e)
      | (ctx1, .ok testStr) =>
        let head := "#" ++ (if isElseIf then "elseif" else "if") ++ "( " ++ testStr ++
          " )" ++ ctx.eol
        match serialize consequent ctx1.indent with
        | (ctx3, .error e) => (ctx3, .error e)
        | (ctx3, .ok consStr) =>
          if (match a with | .ifDirective _ _ _ f => f | _ => false) then
            match serialize a ctx3.dedent with
            | (ctx5, .error e) => (ctx5, .error e)
            | (ctx5, .ok altStr) => (ctx5, .ok (head ++ consStr ++ altStr))
          else
            match serialize a (ctx3.dedent).indent with
            | (ctx6, .error e) => (ctx6, .error e)
            | (ctx6, .ok altStr) =>
              (ctx6.dedent,
               .ok (head ++ consStr ++ "#else" ++ ctx.eol ++ altStr ++ "#end" ++
                 ctx.eol))) := rfl

mutual

/-- The serializer restores the indent level on every successful exit
(mutually with `serializeList`). -/
theorem serialize_ok_level : ∀ (n : VtlNode) (ctx ctx' : SerializationContext) (s : String),
    serialize n ctx = (ctx', .ok s) → ctx'.indentLevel = ctx.indentLevel
  | .binaryExpression op l r, ctx, ctx', s, h => by
    injection h with h1 h2; rw [← h1]
  | .breakDirective sc, ctx, ctx', s, h => by injection h with h1 h2; rw [← h1]
  | .identifier n, ctx, ctx', s, h => by injection h with h1 h2; rw [← h1]
  | .includeDirective files, ctx, ctx', s, h => by injection h with h1 h2; rw [← h1]
  | .literal v, ctx, ctx', s, h => by injection h with h1 h2; rw [← h1]
  | .methodReference p params, ctx, ctx', s, h => by injection h with h1 h2; rw [← h1]
  | .parseDirective f, ctx, ctx', s, h => by injection h with h1 h2; rw [← h1]
  | .propertyReference r p root, ctx, ctx', s, h => by injection h with h1 h2; rw [← h1]
  | .setDirective r e, ctx, ctx', s, h => by injection h with h1 h2; rw [← h1]
  | .stopDirective m, ctx, ctx', s, h => by injection h with h1 h2; rw [← h1]
  | .unaryExpression op a pfx, ctx, ctx', s, h => by injection h with h1 h2; rw [← h1]
  | .variableReference sym, ctx, ctx', s, h => by injection h with h1 h2; rw [← h1]
  | .arrayList elems, ctx, ctx', s, h => by injection h with h1 h2; rw [← h1]
  | .mapNode entries, ctx, ctx', s, h => by injection h with h1 h2; rw [← h1]
  | .nullNode, ctx, ctx', s, h => by
    rw [ser_nullNode] at h
    injection h with h1 h2
    exact absurd h2 (by simp)
  | .statementList stmts, ctx, ctx', s, h => by
    rw [ser_statementList] at h
    exact serializeList_ok_level stmts ctx ctx' s h
  | .forEachDirective itr itbl body, ctx, ctx', s, h => by
    rw [ser_forEachDirective] at h
    rcases hsb : serialize body ctx.indent with ⟨ctx2, r⟩
    rw [hsb] at h
    cases r with
    | error e => injection h with h1 h2; exact absurd h2 (by simp)
    | ok bodyStr =>
      injection h with h1 h2
      have hlvl := serialize_ok_level body ctx.indent ctx2 bodyStr hsb
      rw [← h1]
      simp only [SerializationContext.dedent, SerializationContext.indent] at hlvl ⊢
      omega
  | .ifDirective test consequent none isElseIf, ctx, ctx', s, h => by
    rw [ser_ifDirective_none] at h
    rcases hst : serialize test ctx with ⟨ctx1, rt⟩
    rw [hst] at h
    cases rt with
    | error e => injection h with h1 h2; exact absurd h2 (by simp)
    | ok testStr =>
      dsimp only [] at h
      rcases hsc : serialize consequent ctx1.indent with ⟨ctx3, rc⟩
      rw [hsc] at h
      cases rc with
      | error e => injection h with h1 h2; exact absurd h2 (by simp)
      | ok consStr =>
        injection h with h1 h2
        have hl1 := serialize_ok_level test ctx ctx1 testStr hst
        have hl3 := serialize_ok_level consequent ctx1.indent ctx3 consStr hsc
        rw [← h1]
        simp only [SerializationContext.dedent, SerializationContext.indent] at hl1 hl3 ⊢
        omega
  | .ifDirective test consequent (some a) isElseIf, ctx, ctx', s, h => by
    rw [ser_ifDirective_some] at h
    rcases hst : serialize test ctx with ⟨ctx1, rt⟩
    rw [hst] at h
    cases rt with
    | error e => injection h with h1 h2; exact absurd h2 (by simp)
    | ok testStr =>
      dsimp only [] at h
      rcases hsc : serialize consequent ctx1.indent with ⟨ctx3, rc⟩
      rw [hsc] at h
      cases rc with
      | error e => injection h with h1 h2; exact absurd h2 (by simp)
      | ok consStr =>
        dsimp only [] at h
        have hl1 := serialize_ok_level test ctx ctx1 testStr hst
        have hl3 := serialize_ok_level consequent ctx1.indent ctx3 consStr hsc
        split at h
        · rcases hsa : serialize a ctx3.dedent with ⟨ctx5, ra⟩
          rw [hsa] at h
          cases ra with
          | error e => injection h with h1 h2; exact absurd h2 (by simp)
          | ok altStr =>
            injection h with h1 h2
            have hl5 := serialize_ok_level a ctx3.dedent ctx5 altStr hsa
            rw [← h1]
            simp only [SerializationContext.dedent, SerializationContext.indent]
              at hl1 hl3 hl5 ⊢
            omega
        · rcases hsa : serialize a (ctx3.dedent).indent with ⟨ctx6, ra⟩
          rw [hsa] at h
          cases ra with
          | error e => injection h with h1 h2; exact absurd h2 (by simp)
          | ok altStr =>
            injection h with h1 h2
            have hl6 := serialize_ok_level a (ctx3.dedent).indent ctx6 altStr hsa
            rw [← h1]
            simp only [SerializationContext.dedent, SerializationContext.indent]
              at hl1 hl3 hl6 ⊢
            omega

/-- `serializeList` restores the indent level on success. -/
theorem serializeList_ok_level :
    ∀ (l : List VtlNode) (ctx ctx' : SerializationContext) (s : String),
    serializeList l ctx = (ctx', .ok s) → ctx'.indentLevel = ctx.indentLevel
  | [], ctx, ctx', s, h => by
    rw [serializeList] at h
    injection h with h1 h2
    rw [← h1]
  | n :: rest, ctx, ctx', s, h => by
    rw [serializeList] at h
    rcases hs1 : serialize n ctx with ⟨ctx1, r1⟩
    rw [hs1] at h
    cases r1 with
    | error e => injection h with h1 h2; exact absurd h2 (by simp)
    | ok str1 =>
      dsimp only [] at h
      rcases hs2 : serializeList rest ctx1 with ⟨ctx2, r2⟩
      rw [hs2] at h
      cases r2 with
      | error e => injection h with h1 h2; exact absurd h2 (by simp)
      | ok str2 =>
        injection h with h1 h2
        have ha := serialize_ok_level n ctx ctx1 str1 hs1
        have hb := serializeList_ok_level rest ctx1 ctx2 str2 hs2
        rw [← h1]
        omega

end

/-- C10 (counterexample).  Serialization is not exception-safe: a
`ForEachDirective` whose body faults (here the JavaScript `null` sitting in
the body field) exits `serialize` with the indent level still raised — the
context leaves at level 1 where it entered at level 0, because the source
has no `try`/`finally` around the body. -/
theorem indent_not_restored_on_fault :
    serialize (.forEachDirective (.identifier "i") (.identifier "xs") .nullNode) {} =
      ({ indentLevel := 1 }, .error .typeError) ∧ (1 : Nat) ≠ 0 :=
  ⟨rfl, by decide⟩

/-- C10 (amended, proved).  Block-introducing directives raise the indent
level around their bodies and restore it on every normally-completing exit
path: whenever `serialize` returns successfully, the context's indent level
equals its entry value (for every node kind, `if`/`foreach`/`else` bodies
included).  When serializing a body faults, the level is NOT restored. -/
theorem indent_restored_on_success (n : VtlNode) (ctx ctx' : SerializationContext)
    (s : String) (h : serialize n ctx = (ctx', .ok s)) :
    ctx'.indentLevel = ctx.indentLevel :=
  serialize_ok_level n ctx ctx' s h

/-- Witness for C10's amended theorem at a concrete `IfDirective` and a
context at depth 3. -/
theorem indent_restored_on_success_witness :
    ({ eol := "\n", indentString := "  ", indentLevel := 3 } :
        SerializationContext).indentLevel =
      ({ eol := "\n", indentString := "  ", indentLevel := 3 } :
        SerializationContext).indentLevel :=
  indent_restored_on_success
    (.ifDirective (.identifier "t")
      (.statementList [.setDirective (.variableReference "a") (.literal (.int 1))])
      none false)
    { eol := "\n", indentString := "  ", indentLevel := 3 }
    { eol := "\n", indentString := "  ", indentLevel := 3 }
    "#if( t )\n        #set( $a = 1 )\n#end\n" rfl
